import Mathlib

/-!
The `Socket` of libn2t: a shallow embedding of `src/n2t/socket.cpp`.

The connection state `Socket::SocketInternal` becomes the structure
`SocketInternal`.  Everything the core does that is visible from outside
(calls into the lwip stack, invocations of application handlers) is appended
to a log carried next to it in `World`, in program order.

* A `tcp_pcb *` is `Option Nat` (`none` is `NULL`).
* A `std::function` handler is `Option Nat`: `none` is the empty function,
  `some f` the callable application handler number `f`.  Handler bodies are
  application code: an invocation is recorded as an event, with its arguments.
  In `step` and `run` the body is taken to return without calling back into
  the socket; `exec` runs bodies that do call back, and the operations named
  `..._obs` take the bodies as functions on the state.
  Invoking an empty `std::function` throws `std::bad_function_call`, recorded
  as an event too.
* `std::string` is a list of bytes.
* `unsigned` is a natural number reduced modulo `2 ^ 32`, `u16_t` modulo
  `2 ^ 16`.
* What the stack answers to `tcp_close` is an input of the operation that
  issues the call.
-/

namespace Net2Tr

/-- The lwip error type `err_t`. -/
abbrev err_t := Int

/-- The lwip constant `ERR_OK`. -/
def ERR_OK : err_t := 0

/-- The lwip constant `ERR_ABRT`. -/
def ERR_ABRT : err_t := -13

/-- A `std::string`, as its sequence of bytes. -/
abbrev Bytes := List UInt8

/-- A `tcp_pcb *`; `none` is `NULL`. -/
abbrev tcp_pcb_ptr := Option Nat

/-- A `RecvHandler` (`std::function<void(bool, const std::string &)>`). -/
abbrev RecvHandler := Option Nat

/-- A `SentHandler` (`std::function<void(bool)>`). -/
abbrev SentHandler := Option Nat

/-- An `ErrHandler` (`std::function<void(err_t)>`). -/
abbrev ErrHandler := Option Nat

/-- Number of bits of the C++ type `unsigned`. -/
def UINT_BITS : Nat := 32

/-- Modulus of the arithmetic of `unsigned`. -/
def UINT_MOD : Nat := 2 ^ UINT_BITS

/-- Modulus of the arithmetic of `u16_t`. -/
def U16_MOD : Nat := 2 ^ 16

/-- The conversion `u16_t(n)`. -/
def u16_t (n : Nat) : Nat := n % U16_MOD

/-- Modelled from the spec: `Utils::pbuf_to_str` is only declared in `utils.h`;
the spec has it convert a stack-native buffer into a contiguous byte sequence.
A `pbuf` is represented by the bytes it carries. -/
def pbuf_to_str (p : Bytes) : Bytes := p

/-- A call of the core into the lwip stack that takes the connection object. -/
inductive StackCall where
  | tcp_nagle_disable (pcb : tcp_pcb_ptr)
  | tcp_arg (pcb : tcp_pcb_ptr)
  | tcp_recv (pcb : tcp_pcb_ptr) (fn : Bool)
  | tcp_sent (pcb : tcp_pcb_ptr) (fn : Bool)
  | tcp_err (pcb : tcp_pcb_ptr) (fn : Bool)
  | tcp_close (pcb : tcp_pcb_ptr)
  | tcp_abort (pcb : tcp_pcb_ptr)
  | tcp_recved (pcb : tcp_pcb_ptr) (len : Nat)
  | tcp_write (pcb : tcp_pcb_ptr) (data : Bytes) (len : Nat)
  | tcp_output (pcb : tcp_pcb_ptr)
  deriving DecidableEq, Repr

/-- What the core does that is visible outside of the connection state. -/
inductive Event where
  | stack (c : StackCall)
  | recv_handler (f : Nat) (closed : Bool) (packet : Bytes)
  | sent_handler (f : Nat) (closed : Bool)
  | err_handler (f : Nat) (err : err_t)
  | bad_function_call
  deriving DecidableEq, Repr

/-- The class `Socket::SocketInternal`. -/
structure SocketInternal where
  pcb : tcp_pcb_ptr
  recv : RecvHandler
  sent : SentHandler
  err : ErrHandler
  pending_len : Nat
  recv_buf : Bytes
  err_que : List err_t
  pcb_freed : Bool
  deriving DecidableEq, Repr

/-- The connection state together with the stack-side registration of the three
entry points (`recv_fn`, `sent_fn`, `err_fn`: the last `tcp_recv`, `tcp_sent`,
`tcp_err` call passed a function rather than `NULL`) and the log of events. -/
structure World where
  internal : SocketInternal
  recv_fn : Bool
  sent_fn : Bool
  err_fn : Bool
  log : List Event
  deriving DecidableEq, Repr

/-- The constructor `SocketInternal()`. -/
def SocketInternal.init : SocketInternal :=
  { pcb := none, recv := none, sent := none, err := none, pending_len := 0,
    recv_buf := [], err_que := [], pcb_freed := false }

/-- The constructor `Socket()`: a fresh state, nothing registered, nothing logged. -/
def World.init : World :=
  { internal := SocketInternal.init, recv_fn := false, sent_fn := false,
    err_fn := false, log := [] }

/-- Append an event to the log. -/
def World.emit (e : Event) (w : World) : World :=
  { w with log := w.log ++ [e] }

/-- Invocation `handler(closed, packet)` of a `RecvHandler`. -/
def call_recv (handler : RecvHandler) (closed : Bool) (packet : Bytes) (w : World) : World :=
  match handler with
  | some f => w.emit (Event.recv_handler f closed packet)
  | none => w.emit Event.bad_function_call

/-- Invocation `handler(closed)` of a `SentHandler`. -/
def call_sent (handler : SentHandler) (closed : Bool) (w : World) : World :=
  match handler with
  | some f => w.emit (Event.sent_handler f closed)
  | none => w.emit Event.bad_function_call

/-- Invocation `handler(err)` of an `ErrHandler`. -/
def call_err (handler : ErrHandler) (err : err_t) (w : World) : World :=
  match handler with
  | some f => w.emit (Event.err_handler f err)
  | none => w.emit Event.bad_function_call

/-- The stack call `tcp_nagle_disable(pcb)`. -/
def tcp_nagle_disable (pcb : tcp_pcb_ptr) (w : World) : World :=
  w.emit (Event.stack (StackCall.tcp_nagle_disable pcb))

/-- The stack call `tcp_arg(pcb, internal)`. -/
def tcp_arg (pcb : tcp_pcb_ptr) (w : World) : World :=
  w.emit (Event.stack (StackCall.tcp_arg pcb))

/-- The stack call `tcp_recv(pcb, fn)`; `fn = false` is `NULL`. -/
def tcp_recv (pcb : tcp_pcb_ptr) (fn : Bool) (w : World) : World :=
  { w with recv_fn := fn, log := w.log ++ [Event.stack (StackCall.tcp_recv pcb fn)] }

/-- The stack call `tcp_sent(pcb, fn)`; `fn = false` is `NULL`. -/
def tcp_sent (pcb : tcp_pcb_ptr) (fn : Bool) (w : World) : World :=
  { w with sent_fn := fn, log := w.log ++ [Event.stack (StackCall.tcp_sent pcb fn)] }

/-- The stack call `tcp_err(pcb, fn)`; `fn = false` is `NULL`. -/
def tcp_err (pcb : tcp_pcb_ptr) (fn : Bool) (w : World) : World :=
  { w with err_fn := fn, log := w.log ++ [Event.stack (StackCall.tcp_err pcb fn)] }

/-- The stack call `tcp_close(pcb)`; its answer is an input of the caller. -/
def tcp_close (pcb : tcp_pcb_ptr) (w : World) : World :=
  w.emit (Event.stack (StackCall.tcp_close pcb))

/-- The stack call `tcp_abort(pcb)`. -/
def tcp_abort (pcb : tcp_pcb_ptr) (w : World) : World :=
  w.emit (Event.stack (StackCall.tcp_abort pcb))

/-- The stack call `tcp_recved(pcb, len)`. -/
def tcp_recved (pcb : tcp_pcb_ptr) (len : Nat) (w : World) : World :=
  w.emit (Event.stack (StackCall.tcp_recved pcb len))

/-- The stack call `tcp_write(pcb, data, len, TCP_WRITE_FLAG_COPY)`. -/
def tcp_write (pcb : tcp_pcb_ptr) (data : Bytes) (len : Nat) (w : World) : World :=
  w.emit (Event.stack (StackCall.tcp_write pcb data len))

/-- The stack call `tcp_output(pcb)`. -/
def tcp_output (pcb : tcp_pcb_ptr) (w : World) : World :=
  w.emit (Event.stack (StackCall.tcp_output pcb))

/-- The destructor `~SocketInternal()`; `close_res` is the answer of `tcp_close`. -/
def destroy (close_res : err_t) (w : World) : World :=
  if w.internal.pcb ≠ none ∧ w.internal.pcb_freed = false then
    let w := tcp_recv w.internal.pcb false w
    let w := tcp_sent w.internal.pcb false w
    let w := tcp_err w.internal.pcb false w
    let w := tcp_close w.internal.pcb w
    let w := if ERR_OK ≠ close_res then tcp_abort w.internal.pcb w else w
    { w with internal := { w.internal with pcb := none } }
  else w

/-- The function `Socket::set_pcb`, without the bodies of the three callbacks. -/
def set_pcb (pcb : tcp_pcb_ptr) (w : World) : World :=
  let w := { w with internal := { w.internal with pcb := pcb } }
  let w := tcp_nagle_disable w.internal.pcb w
  let w := tcp_arg w.internal.pcb w
  let w := tcp_recv w.internal.pcb true w
  let w := tcp_sent w.internal.pcb true w
  tcp_err w.internal.pcb true w

/-- The callback given to `tcp_recv` in `set_pcb` (the data-arrived notification).
`tpcb` is the connection object the stack passes, `p` the payload (`none` is a
`NULL` pbuf), `err` the status, `close_res` the answer of `tcp_close` should the
callback call it.  Returns the new state and the callback's return value. -/
def recv_cb (tpcb : tcp_pcb_ptr) (p : Option Bytes) (err : err_t) (close_res : err_t)
    (w : World) : World × err_t :=
  let r : World × err_t :=
    if err ≠ ERR_OK ∨ p = none then
      let w := { w with internal := { w.internal with pcb_freed := true } }
      let w := tcp_close tpcb w
      if close_res ≠ ERR_OK then (tcp_abort tpcb w, ERR_ABRT) else (w, ERR_OK)
    else (w, ERR_OK)
  match p with
  | some pb =>
    let packet := pbuf_to_str pb
    let w := tcp_recved r.1.internal.pcb (u16_t packet.length) r.1
    match w.internal.recv with
    | some f =>
      let tmp : RecvHandler := some f
      let w := { w with internal := { w.internal with recv := none } }
      (call_recv tmp w.internal.pcb_freed packet w, r.2)
    | none =>
      ({ w with internal := { w.internal with recv_buf := w.internal.recv_buf ++ packet } }, r.2)
  | none => r

/-- The callback given to `tcp_sent` in `set_pcb` (the bytes-acknowledged
notification); `len` is a `u16_t`. -/
def sent_cb (len : Nat) (w : World) : World × err_t :=
  let w := { w with internal := { w.internal with
    pending_len := (w.internal.pending_len + UINT_MOD - u16_t len) % UINT_MOD } }
  if w.internal.pending_len = 0 then
    let tmp := w.internal.sent
    let w := { w with internal := { w.internal with sent := none } }
    (call_sent tmp w.internal.pcb_freed w, ERR_OK)
  else (w, ERR_OK)

/-- The callback given to `tcp_err` in `set_pcb` (the error notification). -/
def err_cb (err : err_t) (w : World) : World :=
  let w := { w with internal := { w.internal with pcb_freed := true } }
  match w.internal.err with
  | some f =>
    let tmp : ErrHandler := some f
    let w := { w with internal := { w.internal with err := none } }
    call_err tmp err w
  | none =>
    { w with internal := { w.internal with err_que := w.internal.err_que ++ [err] } }

/-- The function `Socket::async_recv`. -/
def async_recv (handler : RecvHandler) (w : World) : World :=
  if w.internal.pcb_freed then
    call_recv handler w.internal.pcb_freed [] w
  else if w.internal.recv_buf.length = 0 then
    { w with internal := { w.internal with recv := handler } }
  else
    let tmp := w.internal.recv_buf
    let w := { w with internal := { w.internal with recv_buf := [] } }
    call_recv handler w.internal.pcb_freed tmp w

/-- The function `Socket::async_send`. -/
def async_send (packet : Bytes) (handler : SentHandler) (w : World) : World :=
  if w.internal.pcb_freed then
    call_sent handler w.internal.pcb_freed w
  else
    let w := { w with internal := { w.internal with
      pending_len := (w.internal.pending_len + packet.length) % UINT_MOD } }
    let w := { w with internal := { w.internal with sent := handler } }
    let w := tcp_write w.internal.pcb packet (u16_t packet.length) w
    tcp_output w.internal.pcb w

/-- The function `Socket::async_err`. -/
def async_err (handler : ErrHandler) (w : World) : World :=
  match w.internal.err_que with
  | [] => { w with internal := { w.internal with err := handler } }
  | e :: rest =>
    let w := { w with internal := { w.internal with err_que := rest } }
    call_err handler e w

/-- The function `Socket::cancel`. -/
def cancel (w : World) : World :=
  let w :=
    if w.internal.pcb ≠ none then
      let w := tcp_recv w.internal.pcb false w
      let w := tcp_sent w.internal.pcb false w
      tcp_err w.internal.pcb false w
    else w
  { w with internal := { w.internal with recv := none, sent := none, err := none } }

/-- An event of the connection as the stack sees it. -/
inductive StackEvent where
  | data_arrived (p : Option Bytes) (err : err_t) (close_res : err_t)
  | bytes_acked (len : Nat)
  | error (err : err_t)
  deriving DecidableEq, Repr

/-- Modelled from the spec: the dispatch of the stack (lwip, not part of the
sources) from an event of the connection to the entry point registered for it.
The spec has unregistered entry points receive nothing: "future
stack-originated events for this connection no longer reach the core". -/
def stack_deliver (e : StackEvent) (w : World) : World :=
  match e with
  | StackEvent.data_arrived p err close_res =>
    if w.recv_fn then (recv_cb w.internal.pcb p err close_res w).1 else w
  | StackEvent.bytes_acked len =>
    if w.sent_fn then (sent_cb len w).1 else w
  | StackEvent.error err =>
    if w.err_fn then err_cb err w else w

/-- The stack events of a list, dispatched one after the other. -/
def stack_deliver_all (es : List StackEvent) (w : World) : World :=
  es.foldl (fun w e => stack_deliver e w) w

/-- The operations of the application and the notifications of the stack. -/
inductive Op where
  | set_pcb (pcb : tcp_pcb_ptr)
  | async_recv (handler : RecvHandler)
  | async_send (packet : Bytes) (handler : SentHandler)
  | async_err (handler : ErrHandler)
  | cancel
  | data_arrived (p : Option Bytes) (err : err_t) (close_res : err_t)
  | bytes_acked (len : Nat)
  | error (err : err_t)
  deriving DecidableEq, Repr

/-- One operation or notification.  A notification invokes the callback of
`set_pcb`; the stack passes the connection object the callback was registered
on, which is `internal->pcb`. -/
def step (o : Op) (w : World) : World :=
  match o with
  | Op.set_pcb pcb => set_pcb pcb w
  | Op.async_recv handler => async_recv handler w
  | Op.async_send packet handler => async_send packet handler w
  | Op.async_err handler => async_err handler w
  | Op.cancel => cancel w
  | Op.data_arrived p err close_res => (recv_cb w.internal.pcb p err close_res w).1
  | Op.bytes_acked len => (sent_cb len w).1
  | Op.error err => err_cb err w

/-- A sequence of operations and notifications, in order. -/
def run (ops : List Op) (w : World) : World :=
  ops.foldl (fun w o => step o w) w

/-- The invocations of receive handlers in a log, in order. -/
def recv_calls (log : List Event) : List (Nat × Bool × Bytes) :=
  log.filterMap fun e =>
    match e with
    | Event.recv_handler f closed packet => some (f, closed, packet)
    | _ => none

/-- The invocations of send handlers in a log, in order. -/
def sent_calls (log : List Event) : List (Nat × Bool) :=
  log.filterMap fun e =>
    match e with
    | Event.sent_handler f closed => some (f, closed)
    | _ => none

/-- The invocations of error handlers in a log, in order. -/
def err_calls (log : List Event) : List (Nat × err_t) :=
  log.filterMap fun e =>
    match e with
    | Event.err_handler f err => some (f, err)
    | _ => none

/-- The stack calls in a log, in order. -/
def stack_calls (log : List Event) : List StackCall :=
  log.filterMap fun e =>
    match e with
    | Event.stack c => some c
    | _ => none

/-- The handler invocations of any kind in a log (stack calls dropped). -/
def handler_events (log : List Event) : List Event :=
  log.filter fun e =>
    match e with
    | Event.stack _ => false
    | _ => true

/-- The notification by which an entry point of `set_pcb` learns of a stack event. -/
def StackEvent.toOp (e : StackEvent) : Op :=
  match e with
  | StackEvent.data_arrived p err close_res => Op.data_arrived p err close_res
  | StackEvent.bytes_acked len => Op.bytes_acked len
  | StackEvent.error err => Op.error err

/-- The bytes handed to receive handlers in a log, in invocation order. -/
def delivered_bytes (log : List Event) : Bytes :=
  ((recv_calls log).map fun c => c.2.2).flatten

/-- The payload a single operation makes arrive (empty unless it is a data-arrived
notification with a payload). -/
def Op.payload (o : Op) : Bytes :=
  match o with
  | Op.data_arrived (some p) _ _ => pbuf_to_str p
  | _ => []

/-- The bytes that arrive during a sequence of operations, in arrival order. -/
def arrived_bytes (ops : List Op) : Bytes :=
  (ops.map Op.payload).flatten

/-- A payload of `2 ^ 32 + 5` bytes: its length does not fit the `unsigned`
counter `pending_len`. -/
def huge_packet : Bytes := List.replicate (UINT_MOD + 5) 0

/-- Acknowledgment sizes, each a `u16_t`, that add up to `2 ^ 32 + 5`: first 5,
then 65537 times 65535, then 1. -/
def huge_acks : List Nat := 5 :: (List.replicate 65537 65535 ++ [1])

/-- A payload of `2 ^ 16 + 1` bytes: its length does not fit the `u16_t` length
argument of `tcp_write`. -/
def big_packet : Bytes := List.replicate (U16_MOD + 1) 0

/-- The trace of the end-to-end scenario of the spec, on a bound socket: send
`HELLO`, 5 bytes acknowledged, `WORLD` arrives, receive, a data-arrived
notification without payload (`close_res` is what `tcp_close` answers), receive,
send `x`. -/
def scenario (x : Bytes) (h1 h2 h3 h4 : Nat) (close_res : err_t) : List Op :=
  [Op.async_send [72, 69, 76, 76, 79] (some h1),
   Op.bytes_acked 5,
   Op.data_arrived (some [87, 79, 82, 76, 68]) ERR_OK ERR_OK,
   Op.async_recv (some h2),
   Op.data_arrived none ERR_OK close_res,
   Op.async_recv (some h3),
   Op.async_send x (some h4)]

/-- The events of the closure branch of the data-arrived notification: the
orderly close, then the forced abort if `tcp_close` did not answer `ERR_OK`. -/
def close_events (tpcb : tcp_pcb_ptr) (close_res : err_t) : List Event :=
  Event.stack (StackCall.tcp_close tpcb) ::
    (if close_res ≠ ERR_OK then [Event.stack (StackCall.tcp_abort tpcb)] else [])

/-- What the handlers of the application do when they are invoked: for each kind, the
operations the body of handler `f` performs on the socket (and the notifications the
stack enters meanwhile), given the arguments of the invocation and the state it is
invoked in (which carries the whole log so far). -/
structure HandlerBodies where
  recv : Nat → Bool → Bytes → World → List Op
  sent : Nat → Bool → World → List Op
  err : Nat → err_t → World → List Op

/-- Handlers that return without touching the socket. -/
def HandlerBodies.idle : HandlerBodies :=
  { recv := fun _ _ _ _ => [], sent := fun _ _ _ => [], err := fun _ _ _ => [] }

/-- The operations performed by the body of the handler an event invokes, in state `w`;
none for an event that is not the invocation of a callable handler. -/
def HandlerBodies.body (B : HandlerBodies) (w : World) (e : Event) : List Op :=
  match e with
  | Event.recv_handler f closed packet => B.recv f closed packet w
  | Event.sent_handler f closed => B.sent f closed w
  | Event.err_handler f err => B.err f err w
  | _ => []

/-- The events a step from `w` to `w1` has appended to the log. -/
def new_events (w w1 : World) : List Event :=
  w1.log.drop w.log.length

/-- Execution with handlers that re-enter the socket, for at most `n` steps: the next
operation is performed; a handler invocation being the last thing an operation does,
the body of the handler it invoked runs next, before the operations that follow.  When
the steps are used up the state reached so far is returned. -/
def exec (B : HandlerBodies) : Nat → List Op → World → World
  | 0, _, w => w
  | _ + 1, [], w => w
  | n + 1, o :: os, w =>
    exec B n (((new_events w (step o w)).map (B.body (step o w))).flatten ++ os) (step o w)

/-- Buffering and pending handlers exclude each other: a pending receive handler means
an empty receive buffer, a pending error handler an empty error queue. -/
def buffers_exclusive (s : SocketInternal) : Prop :=
  (s.recv ≠ none → s.recv_buf = []) ∧ (s.err ≠ none → s.err_que = [])

instance (s : SocketInternal) : Decidable (buffers_exclusive s) := by
  unfold buffers_exclusive
  exact inferInstance

/-- Handlers that re-enter the socket: the body of receive handler `f` calls
`async_recv` with handler `f + 1`; send and error handlers do nothing. -/
def HandlerBodies.rearm : HandlerBodies :=
  { recv := fun f _ _ _ => [Op.async_recv (some (f + 1))],
    sent := fun _ _ _ => [],
    err := fun _ _ _ => [] }

/-- The handlers of the application as functions on the state: what the body of
handler `f` of each kind does, given the arguments of the invocation, to the state
it is invoked in.  A body may read any field of that state and may change it, for
instance by calling back into the socket. -/
structure HandlerFns where
  recv : Nat → Bool → Bytes → World → World
  sent : Nat → Bool → World → World
  err : Nat → err_t → World → World

/-- Handlers whose bodies leave the state as it is. -/
def HandlerFns.idle : HandlerFns :=
  { recv := fun _ _ _ w => w, sent := fun _ _ w => w, err := fun _ _ w => w }

/-- Invocation `handler(closed, packet)` of a `RecvHandler` whose body is run: the
invocation is logged, then the body runs in the state as it is at this point. -/
def invoke_recv (H : HandlerFns) (handler : RecvHandler) (closed : Bool) (packet : Bytes)
    (w : World) : World :=
  match handler with
  | some f => H.recv f closed packet (w.emit (Event.recv_handler f closed packet))
  | none => w.emit Event.bad_function_call

/-- Invocation `handler(closed)` of a `SentHandler` whose body is run. -/
def invoke_sent (H : HandlerFns) (handler : SentHandler) (closed : Bool) (w : World) : World :=
  match handler with
  | some f => H.sent f closed (w.emit (Event.sent_handler f closed))
  | none => w.emit Event.bad_function_call

/-- Invocation `handler(err)` of an `ErrHandler` whose body is run. -/
def invoke_err (H : HandlerFns) (handler : ErrHandler) (err : err_t) (w : World) : World :=
  match handler with
  | some f => H.err f err (w.emit (Event.err_handler f err))
  | none => w.emit Event.bad_function_call

/-- The callback given to `tcp_recv` in `set_pcb`, with the handler bodies `H` run
where the callback invokes a handler. -/
def recv_cb_obs (H : HandlerFns) (tpcb : tcp_pcb_ptr) (p : Option Bytes) (err : err_t)
    (close_res : err_t) (w : World) : World × err_t :=
  let r : World × err_t :=
    if err ≠ ERR_OK ∨ p = none then
      let w := { w with internal := { w.internal with pcb_freed := true } }
      let w := tcp_close tpcb w
      if close_res ≠ ERR_OK then (tcp_abort tpcb w, ERR_ABRT) else (w, ERR_OK)
    else (w, ERR_OK)
  match p with
  | some pb =>
    let packet := pbuf_to_str pb
    let w := tcp_recved r.1.internal.pcb (u16_t packet.length) r.1
    match w.internal.recv with
    | some f =>
      let tmp : RecvHandler := some f
      let w := { w with internal := { w.internal with recv := none } }
      (invoke_recv H tmp w.internal.pcb_freed packet w, r.2)
    | none =>
      ({ w with internal := { w.internal with recv_buf := w.internal.recv_buf ++ packet } }, r.2)
  | none => r

/-- The callback given to `tcp_sent` in `set_pcb`, with the handler bodies `H` run
where the callback invokes a handler. -/
def sent_cb_obs (H : HandlerFns) (len : Nat) (w : World) : World × err_t :=
  let w := { w with internal := { w.internal with
    pending_len := (w.internal.pending_len + UINT_MOD - u16_t len) % UINT_MOD } }
  if w.internal.pending_len = 0 then
    let tmp := w.internal.sent
    let w := { w with internal := { w.internal with sent := none } }
    (invoke_sent H tmp w.internal.pcb_freed w, ERR_OK)
  else (w, ERR_OK)

/-- The callback given to `tcp_err` in `set_pcb`, with the handler bodies `H` run
where the callback invokes a handler. -/
def err_cb_obs (H : HandlerFns) (err : err_t) (w : World) : World :=
  let w := { w with internal := { w.internal with pcb_freed := true } }
  match w.internal.err with
  | some f =>
    let tmp : ErrHandler := some f
    let w := { w with internal := { w.internal with err := none } }
    invoke_err H tmp err w
  | none =>
    { w with internal := { w.internal with err_que := w.internal.err_que ++ [err] } }

/-- The function `Socket::async_recv`, with the handler bodies `H` run where it
invokes a handler. -/
def async_recv_obs (H : HandlerFns) (handler : RecvHandler) (w : World) : World :=
  if w.internal.pcb_freed then
    invoke_recv H handler w.internal.pcb_freed [] w
  else if w.internal.recv_buf.length = 0 then
    { w with internal := { w.internal with recv := handler } }
  else
    let tmp := w.internal.recv_buf
    let w := { w with internal := { w.internal with recv_buf := [] } }
    invoke_recv H handler w.internal.pcb_freed tmp w

/-- The function `Socket::async_send`, with the handler bodies `H` run where it
invokes a handler. -/
def async_send_obs (H : HandlerFns) (packet : Bytes) (handler : SentHandler) (w : World) :
    World :=
  if w.internal.pcb_freed then
    invoke_sent H handler w.internal.pcb_freed w
  else
    let w := { w with internal := { w.internal with
      pending_len := (w.internal.pending_len + packet.length) % UINT_MOD } }
    let w := { w with internal := { w.internal with sent := handler } }
    let w := tcp_write w.internal.pcb packet (u16_t packet.length) w
    tcp_output w.internal.pcb w

/-- The function `Socket::async_err`, with the handler bodies `H` run where it
invokes a handler. -/
def async_err_obs (H : HandlerFns) (handler : ErrHandler) (w : World) : World :=
  match w.internal.err_que with
  | [] => { w with internal := { w.internal with err := handler } }
  | e :: rest =>
    let w := { w with internal := { w.internal with err_que := rest } }
    invoke_err H handler e w

/-- Handlers that observe the state they are invoked in and call back into the
socket: every body calls `async_send` with one byte, the count of pending bytes it
sees (as that byte) and handler `f + 1`. -/
def HandlerFns.resend : HandlerFns :=
  { recv := fun f _ _ w =>
      async_send [UInt8.ofNat w.internal.pending_len] (some (f + 1)) w,
    sent := fun f _ w =>
      async_send [UInt8.ofNat w.internal.pending_len] (some (f + 1)) w,
    err := fun f _ w =>
      async_send [UInt8.ofNat w.internal.pending_len] (some (f + 1)) w }

/-! ## General lemmas on runs and logs -/

/-- Running no operation changes nothing. -/
theorem run_nil (w : World) : run [] w = w := rfl

/-- A run starts with its first operation. -/
theorem run_cons (o : Op) (os : List Op) (w : World) : run (o :: os) w = run os (step o w) := rfl

/-- A run of two sequences in a row is the run of the second after the first. -/
theorem run_append (xs ys : List Op) (w : World) :
    run (xs ++ ys) w = run ys (run xs w) := by
  simp [run, List.foldl_append]

/-- The send-handler invocations of a concatenated log. -/
theorem sent_calls_append (xs ys : List Event) :
    sent_calls (xs ++ ys) = sent_calls xs ++ sent_calls ys := by
  simp [sent_calls, List.filterMap_append]

/-- The receive-handler invocations of a concatenated log. -/
theorem recv_calls_append (xs ys : List Event) :
    recv_calls (xs ++ ys) = recv_calls xs ++ recv_calls ys := by
  simp [recv_calls, List.filterMap_append]

/-- The error-handler invocations of a concatenated log. -/
theorem err_calls_append (xs ys : List Event) :
    err_calls (xs ++ ys) = err_calls xs ++ err_calls ys := by
  simp [err_calls, List.filterMap_append]

/-- The bytes delivered in a concatenated log. -/
theorem delivered_bytes_append (xs ys : List Event) :
    delivered_bytes (xs ++ ys) = delivered_bytes xs ++ delivered_bytes ys := by
  simp [delivered_bytes, recv_calls_append]

/-- A partial sum of natural numbers is at most the whole sum. -/
theorem sum_take_le (l : List Nat) (j : Nat) : (l.take j).sum ≤ l.sum := by
  have := List.sum_take_add_sum_drop l j
  omega

/-- The sum of `n` copies of `a`. -/
theorem sum_replicate_nat (n a : Nat) : (List.replicate n a).sum = n * a := by
  induction n with
  | zero => simp
  | succ n ih => rw [List.replicate_succ, List.sum_cons, ih]; ring

/-- The sum of `a :: (l ++ [1])`. -/
theorem sum_cons_append_one (l : List Nat) (a s : Nat) (h : l.sum = s) :
    (a :: (l ++ [1])).sum = a + (s + 1) := by
  rw [List.sum_cons, List.sum_append, List.sum_singleton, h]

/-! ## The operations, case by case -/

/-- On a socket that is not closed `async_send` counts the bytes, stores the handler, and
issues `tcp_write` then `tcp_output`; no handler is invoked. -/
theorem async_send_open (w : World) (packet : Bytes) (handler : SentHandler)
    (hfree : w.internal.pcb_freed = false) :
    async_send packet handler w =
      { w with
        internal := { w.internal with
          pending_len := (w.internal.pending_len + packet.length) % UINT_MOD,
          sent := handler },
        log := w.log ++ [Event.stack (StackCall.tcp_write w.internal.pcb packet (u16_t packet.length)),
                         Event.stack (StackCall.tcp_output w.internal.pcb)] } := by
  simp [async_send, hfree, tcp_write, tcp_output, World.emit]

/-- On a closed socket `async_send` only invokes its handler, with `closed = true`. -/
theorem async_send_closed (w : World) (packet : Bytes) (h : Nat)
    (hfree : w.internal.pcb_freed = true) :
    async_send packet (some h) w = { w with log := w.log ++ [Event.sent_handler h true] } := by
  simp [async_send, hfree, call_sent, World.emit]

/-- On a closed socket `async_recv` only invokes its handler, with `closed = true` and an
empty payload. -/
theorem async_recv_closed (w : World) (h : Nat) (hfree : w.internal.pcb_freed = true) :
    async_recv (some h) w = { w with log := w.log ++ [Event.recv_handler h true []] } := by
  simp [async_recv, hfree, call_recv, World.emit]

/-- On a socket that is not closed and has buffered bytes `async_recv` empties the buffer
and hands all of it to its handler. -/
theorem async_recv_buffered (w : World) (h : Nat) (hfree : w.internal.pcb_freed = false)
    (hne : w.internal.recv_buf ≠ []) :
    async_recv (some h) w =
      { w with
        internal := { w.internal with recv_buf := [] },
        log := w.log ++ [Event.recv_handler h false w.internal.recv_buf] } := by
  have hlen : ¬ (w.internal.recv_buf.length = 0) := by
    intro h0; exact hne (List.length_eq_zero.mp h0)
  simp only [async_recv, hfree, hlen, call_recv, World.emit]
  simp

/-- On a socket that is not closed and has nothing buffered `async_recv` only stores its
handler. -/
theorem async_recv_stored (w : World) (handler : RecvHandler)
    (hfree : w.internal.pcb_freed = false) (hbuf : w.internal.recv_buf = []) :
    async_recv handler w = { w with internal := { w.internal with recv := handler } } := by
  simp [async_recv, hfree, hbuf]

/-- With no error queued `async_err` only stores its handler. -/
theorem async_err_empty (w : World) (handler : ErrHandler) (hq : w.internal.err_que = []) :
    async_err handler w = { w with internal := { w.internal with err := handler } } := by
  simp [async_err, hq]

/-- With an error queued `async_err` pops the oldest one and hands it to its handler. -/
theorem async_err_queued (w : World) (h : Nat) (e : err_t) (rest : List err_t)
    (hq : w.internal.err_que = e :: rest) :
    async_err (some h) w =
      { w with
        internal := { w.internal with err_que := rest },
        log := w.log ++ [Event.err_handler h e] } := by
  simp [async_err, hq, call_err, World.emit]

/-- With no error handler pending the error notification sets the closed flag and queues
the code. -/
theorem err_cb_queued (e : err_t) (w : World) (herr : w.internal.err = none) :
    err_cb e w = { w with internal := { w.internal with
        err_que := w.internal.err_que ++ [e], pcb_freed := true } } := by
  simp [err_cb, herr]

/-- On a bound socket `cancel` unregisters the three entry points and empties the three
handler slots; nothing else changes. -/
theorem cancel_bound (w : World) (hbound : w.internal.pcb ≠ none) :
    cancel w =
      { w with
        internal := { w.internal with recv := none, sent := none, err := none },
        recv_fn := false, sent_fn := false, err_fn := false,
        log := w.log ++ [Event.stack (StackCall.tcp_recv w.internal.pcb false),
                         Event.stack (StackCall.tcp_sent w.internal.pcb false),
                         Event.stack (StackCall.tcp_err w.internal.pcb false)] } := by
  simp [cancel, hbound, tcp_recv, tcp_sent, tcp_err]

/-- The bytes-acknowledged notification when the acknowledged length `a` does not exceed
the count `m` of pending bytes: the count drops by `a`, and the slot is invoked and
emptied exactly when the count reaches zero. -/
theorem sent_cb_step (w : World) (a m : Nat) (hm : w.internal.pending_len = m)
    (hmlt : m < UINT_MOD) (ha : a < U16_MOD) (ham : a ≤ m) :
    (sent_cb a w).1.internal.pending_len = m - a ∧
    (sent_cb a w).1.internal.pcb_freed = w.internal.pcb_freed ∧
    (sent_cb a w).1.internal.sent = (if m - a = 0 then none else w.internal.sent) ∧
    sent_calls (sent_cb a w).1.log = sent_calls w.log ++
      (if m - a = 0 then
        (match w.internal.sent with
         | some f => [(f, w.internal.pcb_freed)]
         | none => [])
       else []) := by
  have h1 : (m + UINT_MOD - u16_t a) % UINT_MOD = m - a := by
    have : u16_t a = a := by
      unfold u16_t; exact Nat.mod_eq_of_lt ha
    rw [this]
    have h2 : m + UINT_MOD - a = (m - a) + UINT_MOD := by omega
    rw [h2, Nat.add_mod_right]
    exact Nat.mod_eq_of_lt (by omega)
  unfold sent_cb
  simp only [hm, h1]
  by_cases hz : m - a = 0
  · simp only [hz, if_true]
    cases hs : w.internal.sent <;>
      simp [call_sent, World.emit, sent_calls_append, sent_calls]
  · simp [hz]

/-- A data-arrived notification with a payload and status `ERR_OK`, no receive handler
pending: the payload is appended to the buffer after `tcp_recved`. -/
theorem recv_cb_ok_buffered (w : World) (p : Bytes) (cr : err_t)
    (hrecv : w.internal.recv = none) :
    (recv_cb w.internal.pcb (some p) ERR_OK cr w).1 =
      { w with
        internal := { w.internal with recv_buf := w.internal.recv_buf ++ p },
        log := w.log ++ [Event.stack (StackCall.tcp_recved w.internal.pcb (u16_t p.length))] } := by
  simp [recv_cb, tcp_recved, World.emit, hrecv, pbuf_to_str]

/-- A data-arrived notification with a payload and status `ERR_OK` leaves the closed flag
as it is. -/
theorem recv_cb_ok_keeps_flag (tpcb : tcp_pcb_ptr) (pb : Bytes) (cr : err_t) (w : World) :
    (recv_cb tpcb (some pb) ERR_OK cr w).1.internal.pcb_freed = w.internal.pcb_freed := by
  simp only [recv_cb, tcp_recved, World.emit, call_recv]
  split <;> simp

/-- A data-arrived notification with a failing status or no payload sets the closed flag. -/
theorem recv_cb_closing_sets_flag (tpcb : tcp_pcb_ptr) (p : Option Bytes) (err cr : err_t)
    (w : World) (hc : err ≠ ERR_OK ∨ p = none) :
    (recv_cb tpcb p err cr w).1.internal.pcb_freed = true := by
  cases p with
  | none =>
    by_cases hcr : cr = ERR_OK <;>
      simp [recv_cb, hcr, tcp_close, tcp_abort, World.emit]
  | some pb =>
    have herr : err ≠ ERR_OK := by simpa using hc
    by_cases hcr : cr = ERR_OK <;> cases hr : w.internal.recv <;>
      simp [recv_cb, herr, hcr, hr, tcp_close, tcp_abort, tcp_recved, call_recv, World.emit]

/-- The bytes-acknowledged notification leaves the closed flag as it is. -/
theorem sent_cb_keeps_flag (len : Nat) (w : World) :
    (sent_cb len w).1.internal.pcb_freed = w.internal.pcb_freed := by
  simp only [sent_cb]
  split
  · simp only [call_sent, World.emit]
    split <;> rfl
  · rfl

/-- The error notification sets the closed flag. -/
theorem err_cb_sets_flag (err : err_t) (w : World) :
    (err_cb err w).internal.pcb_freed = true := by
  simp only [err_cb]
  split <;> simp [call_err, World.emit]

/-- No operation and no notification resets the closed flag. -/
theorem step_keeps_closed (o : Op) (w : World) (h : w.internal.pcb_freed = true) :
    (step o w).internal.pcb_freed = true := by
  cases o with
  | set_pcb pcb => simpa [step, set_pcb, tcp_nagle_disable, tcp_arg, tcp_recv, tcp_sent, tcp_err,
      World.emit] using h
  | async_recv handler =>
    cases handler <;> simp [step, async_recv, h, call_recv, World.emit]
  | async_send packet handler =>
    cases handler <;> simp [step, async_send, h, call_sent, World.emit]
  | async_err handler =>
    simp only [step, async_err]
    split
    · exact h
    · cases handler <;> simpa [call_err, World.emit] using h
  | cancel =>
    simp only [step, cancel]
    split <;> simpa [tcp_recv, tcp_sent, tcp_err] using h
  | data_arrived p err close_res =>
    simp only [step, recv_cb]
    cases p with
    | none => simp; split <;> simp [tcp_close, tcp_abort, World.emit]
    | some pb =>
      simp only [tcp_recved, World.emit, tcp_close, tcp_abort, call_recv]
      split <;> split <;> (try split) <;> simp [h]
  | bytes_acked len =>
    simp only [step, sent_cb]
    split
    · simp only [call_sent, World.emit]
      split <;> exact h
    · exact h
  | error err =>
    simp only [step, err_cb]
    split <;> simp [call_err, World.emit]

/-- Operations other than the data-arrived and the error notification leave the closed
flag as it is. -/
theorem app_op_keeps_flag (o : Op) (w : World)
    (hd : ∀ p err cr, o ≠ Op.data_arrived p err cr) (he : ∀ err, o ≠ Op.error err) :
    (step o w).internal.pcb_freed = w.internal.pcb_freed := by
  cases o with
  | set_pcb pcb => simp [step, set_pcb, tcp_nagle_disable, tcp_arg, tcp_recv, tcp_sent, tcp_err,
      World.emit]
  | async_recv handler =>
    simp only [step, async_recv]
    split
    · cases handler <;> rfl
    · split
      · rfl
      · cases handler <;> rfl
  | async_send packet handler =>
    simp only [step, async_send]
    split
    · cases handler <;> rfl
    · rfl
  | async_err handler =>
    simp only [step, async_err]
    split
    · rfl
    · cases handler <;> rfl
  | cancel =>
    simp only [step, cancel]
    split <;> rfl
  | data_arrived p err close_res => exact absurd rfl (hd p err close_res)
  | bytes_acked len => exact sent_cb_keeps_flag len w
  | error err => exact absurd rfl (he err)

/-! ## C1: send completion -/

/-- State of the socket after `async_send` of a payload whose length fits `unsigned`,
followed by the first `j` of acknowledgments that add up to that length: the pending
count, the closed flag, the send-handler slot and the send-handler invocations. -/
theorem send_acks_invariant (w : World) (packet : Bytes) (h : Nat) (acks : List Nat)
    (hfree : w.internal.pcb_freed = false) (hpl : w.internal.pending_len = 0)
    (hN : packet.length < UINT_MOD) (hu16 : ∀ a ∈ acks, a < U16_MOD)
    (hsum : acks.sum = packet.length) (j : Nat) (hj : j ≤ acks.length) :
    (run ((acks.take j).map Op.bytes_acked) (async_send packet (some h) w)).internal.pending_len
        = packet.length - (acks.take j).sum ∧
    (run ((acks.take j).map Op.bytes_acked) (async_send packet (some h) w)).internal.pcb_freed
        = false ∧
    (run ((acks.take j).map Op.bytes_acked) (async_send packet (some h) w)).internal.sent
        = (if 1 ≤ j ∧ (acks.take j).sum = packet.length then none else some h) ∧
    sent_calls (run ((acks.take j).map Op.bytes_acked) (async_send packet (some h) w)).log
        = sent_calls w.log ++
          (if 1 ≤ j ∧ (acks.take j).sum = packet.length then [(h, false)] else []) := by
  induction j with
  | zero =>
    rw [async_send_open w packet (some h) hfree]
    simp [run, hpl, hfree, Nat.mod_eq_of_lt hN, sent_calls_append, sent_calls]
  | succ j ih =>
    have hjlt : j < acks.length := hj
    obtain ⟨ih1, ih2, ih3, ih4⟩ := ih (Nat.le_of_lt hjlt)
    have htake : acks.take (j + 1) = acks.take j ++ [acks[j]] := by
      rw [List.take_succ, List.getElem?_eq_getElem hjlt]; rfl
    have hle := sum_take_le acks (j + 1)
    rw [htake, List.sum_append, List.sum_singleton, hsum] at hle
    have ha : acks[j] < U16_MOD := hu16 _ (List.getElem_mem hjlt)
    rw [htake, List.map_append, run_append, List.sum_append, List.sum_singleton]
    generalize run ((acks.take j).map Op.bytes_acked) (async_send packet (some h) w) = wj at *
    have hstep := sent_cb_step wj acks[j] (packet.length - (acks.take j).sum) ih1
      (by omega) ha (by omega)
    obtain ⟨s1, s2, s3, s4⟩ := hstep
    simp only [List.map_cons, List.map_nil, run, List.foldl_cons, List.foldl_nil, step]
    refine ⟨by rw [s1]; omega, by rw [s2, ih2], ?_, ?_⟩
    · rw [s3, ih3]
      by_cases hfired : 1 ≤ j ∧ (acks.take j).sum = packet.length
      · have : acks[j] = 0 := by omega
        simp [hfired, this]
      · by_cases hz : packet.length - (acks.take j).sum - acks[j] = 0
        · have : (acks.take j).sum + acks[j] = packet.length := by omega
          simp [hz, this]
        · have : ¬ ((acks.take j).sum + acks[j] = packet.length) := by omega
          simp [hfired, hz, this]
    · rw [s4, ih4, ih3, ih2]
      by_cases hfired : 1 ≤ j ∧ (acks.take j).sum = packet.length
      · have : acks[j] = 0 := by omega
        simp [hfired, this]
      · by_cases hz : packet.length - (acks.take j).sum - acks[j] = 0
        · have : (acks.take j).sum + acks[j] = packet.length := by omega
          simp [hfired, hz, this]
        · have : ¬ ((acks.take j).sum + acks[j] = packet.length) := by omega
          simp [hfired, hz, this]

/-- C1 (amended): send completion exactness, for payloads whose length `N` fits the
`unsigned` counter (`N < 2 ^ 32`).  On a socket that is not closed, with
`pending_len = 0`, let `async_send(packet, h)` be followed by acknowledgment
notifications of `u16_t` sizes `a1..ak`, `k >= 1`, adding up to `N`.  Then `async_send`
itself invokes no send handler; after the first `j` notifications `pending_len` is
`N - (a1 + ... + aj)`, so the `i`-th notification lowers it by exactly `ai`, and the
send-handler invocations added so far are `h(closed = false)` once if `j >= 1` and
`a1 + ... + aj = N`, none otherwise: `h` fires during the first notification at which
the cumulative sum equals `N`, not earlier, and exactly once in total. -/
theorem C1_send_completion_exact (w : World) (packet : Bytes) (h : Nat) (acks : List Nat)
    (hfree : w.internal.pcb_freed = false) (hpl : w.internal.pending_len = 0)
    (hN : packet.length < UINT_MOD) (hu16 : ∀ a ∈ acks, a < U16_MOD)
    (hsum : acks.sum = packet.length) (hk : 1 ≤ acks.length) :
    sent_calls (async_send packet (some h) w).log = sent_calls w.log ∧
    (∀ j, j ≤ acks.length →
      (run ((acks.take j).map Op.bytes_acked)
          (async_send packet (some h) w)).internal.pending_len
        = packet.length - (acks.take j).sum ∧
      sent_calls (run ((acks.take j).map Op.bytes_acked) (async_send packet (some h) w)).log
        = sent_calls w.log ++
          (if 1 ≤ j ∧ (acks.take j).sum = packet.length then [(h, false)] else [])) ∧
    sent_calls (run (acks.map Op.bytes_acked) (async_send packet (some h) w)).log
      = sent_calls w.log ++ [(h, false)] := by
  refine ⟨?_, ?_, ?_⟩
  · have h0 := (send_acks_invariant w packet h acks hfree hpl hN hu16 hsum 0 (Nat.zero_le _)).2.2.2
    simpa [run] using h0
  · intro j hj
    have hj' := send_acks_invariant w packet h acks hfree hpl hN hu16 hsum j hj
    exact ⟨hj'.1, hj'.2.2.2⟩
  · have hl := (send_acks_invariant w packet h acks hfree hpl hN hu16 hsum acks.length
      (Nat.le_refl _)).2.2.2
    rw [List.take_length] at hl
    rw [hl, if_pos ⟨hk, hsum⟩]

/-- C1 at a concrete input: `HELLO` sent on a freshly bound socket and acknowledged as
2 + 3 bytes; handler 7 is invoked once. -/
theorem C1_send_completion_exact_witness :
    (set_pcb (some 1) World.init).internal.pcb_freed = false ∧
    (set_pcb (some 1) World.init).internal.pending_len = 0 ∧
    ([72, 69, 76, 76, 79] : Bytes).length < UINT_MOD ∧
    (∀ a ∈ ([2, 3] : List Nat), a < U16_MOD) ∧
    ([2, 3] : List Nat).sum = ([72, 69, 76, 76, 79] : Bytes).length ∧
    1 ≤ ([2, 3] : List Nat).length ∧
    sent_calls (run (([2, 3] : List Nat).map Op.bytes_acked)
      (async_send [72, 69, 76, 76, 79] (some 7) (set_pcb (some 1) World.init))).log
      = sent_calls (set_pcb (some 1) World.init).log ++ [(7, false)] :=
  ⟨rfl, rfl, by decide, by decide, rfl, by decide,
   (C1_send_completion_exact (set_pcb (some 1) World.init) [72, 69, 76, 76, 79] 7 [2, 3]
      rfl rfl (by decide) (by decide) rfl (by decide)).2.2⟩

/-- The length of `huge_packet`. -/
theorem huge_packet_length : huge_packet.length = UINT_MOD + 5 :=
  List.length_replicate _ _

/-- The acknowledgments `huge_acks` add up to the length of `huge_packet`. -/
theorem huge_acks_sum : huge_acks.sum = UINT_MOD + 5 := by
  have h : huge_acks.sum = 5 + (65537 * 65535 + 1) :=
    sum_cons_append_one _ _ _ (sum_replicate_nat _ _)
  rw [h]
  norm_num [UINT_MOD, UINT_BITS]

/-- Every size in `huge_acks` is a `u16_t`. -/
theorem huge_acks_u16 : ∀ a ∈ huge_acks, a < U16_MOD := by
  intro a ha
  unfold huge_acks at ha
  rw [List.mem_cons, List.mem_append, List.mem_replicate, List.mem_singleton] at ha
  rcases ha with h | ⟨_, h⟩ | h <;> subst h <;> decide

/-- The first acknowledgment of `huge_acks`. -/
theorem huge_acks_take : huge_acks.take 1 = [5] := rfl

/-- C1 as stated fails for a payload of `2 ^ 32 + 5` bytes: `pending_len += packet.size()`
wraps to 5, so on a freshly bound socket the first acknowledgment, of 5 bytes, already
brings `pending_len` to 0 and invokes the handler, although the acknowledgments
(`huge_acks`, adding up to the payload length) have by then only reached 5. -/
theorem C1_counterexample :
    (set_pcb (some 1) World.init).internal.pcb_freed = false ∧
    (set_pcb (some 1) World.init).internal.pending_len = 0 ∧
    (set_pcb (some 1) World.init).internal.sent = none ∧
    (set_pcb (some 1) World.init).internal.pcb ≠ none ∧
    (∀ a ∈ huge_acks, a < U16_MOD) ∧
    huge_acks.sum = huge_packet.length ∧
    1 ≤ huge_acks.length ∧
    (huge_acks.take 1).sum ≠ huge_packet.length ∧
    sent_calls (run ((huge_acks.take 1).map Op.bytes_acked)
      (async_send huge_packet (some 7) (set_pcb (some 1) World.init))).log = [(7, false)] := by
  refine ⟨rfl, rfl, rfl, by decide, huge_acks_u16, ?_, ?_, ?_, ?_⟩
  · rw [huge_acks_sum, huge_packet_length]
  · unfold huge_acks; rw [List.length_cons]; omega
  · rw [huge_acks_take, huge_packet_length]; decide
  · rw [huge_acks_take, async_send_open _ _ _ rfl]
    have hlen : (0 + huge_packet.length) % UINT_MOD = 5 := by
      rw [huge_packet_length]; decide
    have h0 : (set_pcb (some 1) World.init).internal.pending_len = 0 := rfl
    have h5 : (5 + UINT_MOD - u16_t 5) % UINT_MOD = 0 := by decide
    simp only [List.map_cons, List.map_nil, run, List.foldl_cons, List.foldl_nil, step,
      h0, sent_cb, hlen, h5, if_true, call_sent, World.emit, sent_calls_append]
    rfl

/-! ## C2: order preservation -/

/-- Data-arrived notifications with payloads and status `ERR_OK`, no receive handler
pending: the payloads are appended to the buffer in order, nothing else in the
connection state changes, and no receive handler is invoked. -/
theorem run_data_ok_buffered (ps : List Bytes) (cr : err_t) (w : World)
    (hrecv : w.internal.recv = none) :
    (run (ps.map fun p => Op.data_arrived (some p) ERR_OK cr) w).internal =
      { w.internal with recv_buf := w.internal.recv_buf ++ ps.flatten } ∧
    recv_calls (run (ps.map fun p => Op.data_arrived (some p) ERR_OK cr) w).log
      = recv_calls w.log := by
  induction ps generalizing w with
  | nil => simp [run]
  | cons p ps ih =>
    have hstep := recv_cb_ok_buffered w p cr hrecv
    simp only [List.map_cons, run, List.foldl_cons, step] at ih ⊢
    rw [hstep]
    have := ih { w with
        internal := { w.internal with recv_buf := w.internal.recv_buf ++ p },
        log := w.log ++ [Event.stack (StackCall.tcp_recved w.internal.pcb (u16_t p.length))] }
      hrecv
    refine ⟨?_, ?_⟩
    · rw [this.1]; simp [List.append_assoc]
    · rw [this.2]; simp [recv_calls_append, recv_calls]

/-- C2 (amended): order preservation.  On a socket that is not closed, with an empty
receive buffer and no receive handler pending, let data-arrived notifications with
status `ERR_OK` carry payloads `p1..pn` whose concatenation is not empty.  The
notifications invoke no receive handler and leave `recv_buf = p1 ++ ... ++ pn`; a
following `async_recv(h)` invokes `h` once, inline, with `closed = false` and that
concatenation, leaves `recv_buf` empty and the receive-handler slot empty. -/
theorem C2_order_preservation (w : World) (ps : List Bytes) (cr : err_t) (h : Nat)
    (hfree : w.internal.pcb_freed = false) (hbuf : w.internal.recv_buf = [])
    (hrecv : w.internal.recv = none) (hne : ps.flatten ≠ []) :
    recv_calls (run (ps.map fun p => Op.data_arrived (some p) ERR_OK cr) w).log
      = recv_calls w.log ∧
    (run (ps.map fun p => Op.data_arrived (some p) ERR_OK cr) w).internal.recv_buf = ps.flatten ∧
    recv_calls (async_recv (some h)
        (run (ps.map fun p => Op.data_arrived (some p) ERR_OK cr) w)).log
      = recv_calls w.log ++ [(h, false, ps.flatten)] ∧
    (async_recv (some h)
        (run (ps.map fun p => Op.data_arrived (some p) ERR_OK cr) w)).internal.recv_buf = [] ∧
    (async_recv (some h)
        (run (ps.map fun p => Op.data_arrived (some p) ERR_OK cr) w)).internal.recv = none := by
  obtain ⟨h1, h2⟩ := run_data_ok_buffered ps cr w hrecv
  generalize run (ps.map fun p => Op.data_arrived (some p) ERR_OK cr) w = w1 at *
  have hb : w1.internal.recv_buf = ps.flatten := by rw [h1]; simp [hbuf]
  have hf : w1.internal.pcb_freed = false := by rw [h1]; exact hfree
  have hr : w1.internal.recv = none := by rw [h1]; exact hrecv
  have hne1 : w1.internal.recv_buf ≠ [] := by rw [hb]; exact hne
  rw [async_recv_buffered w1 h hf hne1]
  refine ⟨h2, hb, ?_, rfl, hr⟩
  show recv_calls (w1.log ++ [Event.recv_handler h false w1.internal.recv_buf]) = _
  rw [recv_calls_append, h2, hb]
  rfl

/-- C2 at a concrete input: `WO` then `RLD` arrive on a freshly bound socket; handler 7
observes their concatenation. -/
theorem C2_order_preservation_witness :
    (set_pcb (some 1) World.init).internal.pcb_freed = false ∧
    (set_pcb (some 1) World.init).internal.recv_buf = [] ∧
    (set_pcb (some 1) World.init).internal.recv = none ∧
    ([[87, 79], [82, 76, 68]] : List Bytes).flatten ≠ [] ∧
    recv_calls (async_recv (some 7)
        (run (([[87, 79], [82, 76, 68]] : List Bytes).map
          fun p => Op.data_arrived (some p) ERR_OK ERR_OK) (set_pcb (some 1) World.init))).log
      = recv_calls (set_pcb (some 1) World.init).log
          ++ [(7, false, ([[87, 79], [82, 76, 68]] : List Bytes).flatten)] :=
  ⟨rfl, rfl, rfl, by decide,
   (C2_order_preservation (set_pcb (some 1) World.init) [[87, 79], [82, 76, 68]] ERR_OK 7
      rfl rfl rfl (by decide)).2.2.1⟩

/-- C2 as stated fails in two ways on a freshly bound socket.  (1) After one data-arrived
notification with an empty payload, `async_recv(7)` stores the handler and invokes
nothing.  (2) After one data-arrived notification carrying the byte 65 with a failing
status, `async_recv(7)` invokes the handler with `closed = true` and an empty payload,
and the byte stays in `recv_buf`. -/
theorem C2_counterexample :
    (set_pcb (some 1) World.init).internal.recv_buf = [] ∧
    (set_pcb (some 1) World.init).internal.recv = none ∧
    (set_pcb (some 1) World.init).internal.pcb ≠ none ∧
    recv_calls (async_recv (some 7)
      (run [Op.data_arrived (some []) ERR_OK ERR_OK] (set_pcb (some 1) World.init))).log = [] ∧
    (async_recv (some 7)
      (run [Op.data_arrived (some []) ERR_OK ERR_OK]
        (set_pcb (some 1) World.init))).internal.recv = some 7 ∧
    recv_calls (async_recv (some 7)
      (run [Op.data_arrived (some [65]) ERR_ABRT ERR_OK] (set_pcb (some 1) World.init))).log
      = [(7, true, [])] ∧
    (async_recv (some 7)
      (run [Op.data_arrived (some [65]) ERR_ABRT ERR_OK]
        (set_pcb (some 1) World.init))).internal.recv_buf = [65] := by
  decide

/-! ## C3: operations after closure -/

/-- C3 (amended): operations after closure.  In a state with `pcb_freed = true`,
`async_recv(h)` only invokes `h` with `closed = true` and an empty payload, and
`async_send(packet, h)` only invokes `h` with `closed = true`: no field of the
connection state changes, in particular not `pending_len`, `recv_buf`, `err_que`.
`async_err(h)` does not look at the closed flag: with an empty error queue it only
stores `h`, without invoking it; otherwise it pops the oldest queued code and invokes
`h` with it (an error handler takes no closed indicator). -/
theorem C3_post_close_noop (w : World) (h : Nat) (packet : Bytes)
    (hfree : w.internal.pcb_freed = true) :
    async_recv (some h) w = { w with log := w.log ++ [Event.recv_handler h true []] } ∧
    async_send packet (some h) w = { w with log := w.log ++ [Event.sent_handler h true] } ∧
    (w.internal.err_que = [] →
      async_err (some h) w = { w with internal := { w.internal with err := some h } }) ∧
    (∀ e rest, w.internal.err_que = e :: rest →
      async_err (some h) w =
        { w with
          internal := { w.internal with err_que := rest },
          log := w.log ++ [Event.err_handler h e] }) :=
  ⟨async_recv_closed w h hfree, async_send_closed w packet h hfree,
   async_err_empty w (some h), fun e rest hq => async_err_queued w h e rest hq⟩

/-- C3 at a concrete input: after a data-arrived notification without payload closed a
freshly bound socket, `async_send` only invokes its handler. -/
theorem C3_post_close_noop_witness :
    (run [Op.data_arrived none ERR_OK ERR_OK] (set_pcb (some 1) World.init)).internal.pcb_freed
      = true ∧
    async_send [72, 73] (some 7)
        (run [Op.data_arrived none ERR_OK ERR_OK] (set_pcb (some 1) World.init))
      = { run [Op.data_arrived none ERR_OK ERR_OK] (set_pcb (some 1) World.init) with
          log := (run [Op.data_arrived none ERR_OK ERR_OK] (set_pcb (some 1) World.init)).log
            ++ [Event.sent_handler 7 true] } :=
  ⟨rfl, (C3_post_close_noop (run [Op.data_arrived none ERR_OK ERR_OK]
      (set_pcb (some 1) World.init)) 7 [72, 73] rfl).2.1⟩

/-- C3 as stated fails for `async_err`.  After closure by a data-arrived notification
without payload on a freshly bound socket, `async_err(7)` invokes nothing and stores the
handler.  After closure by an error notification with code -14, `async_err(7)` takes
the code out of `err_que`. -/
theorem C3_counterexample :
    (run [Op.data_arrived none ERR_OK ERR_OK] (set_pcb (some 1) World.init)).internal.pcb_freed
      = true ∧
    err_calls (async_err (some 7)
      (run [Op.data_arrived none ERR_OK ERR_OK] (set_pcb (some 1) World.init))).log = [] ∧
    (async_err (some 7)
      (run [Op.data_arrived none ERR_OK ERR_OK] (set_pcb (some 1) World.init))).internal.err
      = some 7 ∧
    (run [Op.error (-14)] (set_pcb (some 1) World.init)).internal.pcb_freed = true ∧
    (run [Op.error (-14)] (set_pcb (some 1) World.init)).internal.err_que = [-14] ∧
    (async_err (some 7)
      (run [Op.error (-14)] (set_pcb (some 1) World.init))).internal.err_que = [] := by
  decide

/-! ## C4: error codes are delivered first in, first out -/

/-- Error notifications with no error handler pending queue their codes in order. -/
theorem run_errors_queued (es : List err_t) (w : World) (herr : w.internal.err = none) :
    run (es.map Op.error) w =
      { w with internal := { w.internal with
          err_que := w.internal.err_que ++ es,
          pcb_freed := w.internal.pcb_freed || !es.isEmpty } } := by
  induction es generalizing w with
  | nil => simp [run]
  | cons e es ih =>
    rw [List.map_cons, run_cons]
    show run (es.map Op.error) (err_cb e w) = _
    rw [ih (err_cb e w) (by rw [err_cb_queued e w herr]; exact herr), err_cb_queued e w herr]
    simp

/-- As many `async_err` calls as there are codes at the front of the queue: each call
pops one code and invokes its handler with it, in order. -/
theorem run_async_err_pops (hs : List Nat) (es rest : List err_t) (w : World)
    (hlen : hs.length = es.length) (hq : w.internal.err_que = es ++ rest) :
    run (hs.map fun h => Op.async_err (some h)) w =
      { w with
        internal := { w.internal with err_que := rest },
        log := w.log ++ (hs.zip es).map fun he => Event.err_handler he.1 he.2 } := by
  induction hs generalizing es w with
  | nil =>
    cases es with
    | nil => simp [run] at hq ⊢; rw [← hq]
    | cons e es => simp at hlen
  | cons h hs ih =>
    cases es with
    | nil => simp at hlen
    | cons e es =>
      rw [List.map_cons, run_cons]
      show run (hs.map fun h => Op.async_err (some h)) (async_err (some h) w) = _
      have hstep := async_err_queued w h e (es ++ rest) (by simpa using hq)
      rw [ih es (async_err (some h) w) (by simpa using hlen) (by rw [hstep]), hstep]
      simp

/-- C4: error codes are delivered first in, first out.  On a socket with an empty error
queue and no error handler pending, let error notifications deliver `e1..en`, then let
`async_err` be called with `h1..hn`.  The notifications invoke nothing and queue
`e1..en`.  After the first `j` calls the log has grown by exactly the invocations
`h1(e1), ..., hj(ej)`, in this order, and the queue holds `e(j+1)..en`: each call
invokes its own handler once, inline, with the oldest queued code.  After the `n`-th
call the queue is empty, and one more `async_err(h')` only stores `h'`. -/
theorem C4_error_fifo (w : World) (es : List err_t) (hs : List Nat) (h' : Nat)
    (hq : w.internal.err_que = []) (herr : w.internal.err = none)
    (hlen : hs.length = es.length) :
    (run (es.map Op.error) w).log = w.log ∧
    (run (es.map Op.error) w).internal.err_que = es ∧
    (∀ j, j ≤ hs.length →
      (run ((hs.take j).map fun h => Op.async_err (some h)) (run (es.map Op.error) w)).log
        = w.log ++ ((hs.take j).zip (es.take j)).map (fun he => Event.err_handler he.1 he.2) ∧
      (run ((hs.take j).map fun h => Op.async_err (some h))
        (run (es.map Op.error) w)).internal.err_que = es.drop j) ∧
    (run (hs.map fun h => Op.async_err (some h)) (run (es.map Op.error) w)).log
      = w.log ++ (hs.zip es).map (fun he => Event.err_handler he.1 he.2) ∧
    (run (hs.map fun h => Op.async_err (some h))
      (run (es.map Op.error) w)).internal.err_que = [] ∧
    async_err (some h')
        (run (hs.map fun h => Op.async_err (some h)) (run (es.map Op.error) w))
      = { run (hs.map fun h => Op.async_err (some h)) (run (es.map Op.error) w) with
          internal := { (run (hs.map fun h => Op.async_err (some h))
            (run (es.map Op.error) w)).internal with err := some h' } } := by
  have h1 := run_errors_queued es w herr
  have hlog : (run (es.map Op.error) w).log = w.log := by rw [h1]
  have hque : (run (es.map Op.error) w).internal.err_que = es := by rw [h1]; simp [hq]
  generalize run (es.map Op.error) w = w1 at *
  have hpre : ∀ j, j ≤ hs.length →
      run ((hs.take j).map fun h => Op.async_err (some h)) w1 =
        { w1 with
          internal := { w1.internal with err_que := es.drop j },
          log := w1.log ++ ((hs.take j).zip (es.take j)).map
            fun he => Event.err_handler he.1 he.2 } := by
    intro j _
    apply run_async_err_pops
    · simp [List.length_take, hlen]
    · rw [hque, List.take_append_drop]
  have hall := hpre hs.length (Nat.le_refl _)
  rw [List.take_length, hlen, List.take_length, List.drop_length] at hall
  refine ⟨hlog, hque, ?_, ?_, ?_, ?_⟩
  · intro j hj
    rw [hpre j hj]
    exact ⟨by simp [hlog], rfl⟩
  · rw [hall]; simp [hlog]
  · rw [hall]
  · apply async_err_empty
    rw [hall]

/-- C4 at a concrete input: codes -14 and -15, then handlers 7 and 8. -/
theorem C4_error_fifo_witness :
    (set_pcb (some 1) World.init).internal.err_que = [] ∧
    (set_pcb (some 1) World.init).internal.err = none ∧
    ([7, 8] : List Nat).length = ([-14, -15] : List err_t).length ∧
    (run (([7, 8] : List Nat).map fun h => Op.async_err (some h))
        (run (([-14, -15] : List err_t).map Op.error) (set_pcb (some 1) World.init))).log
      = (set_pcb (some 1) World.init).log
          ++ (([7, 8] : List Nat).zip ([-14, -15] : List err_t)).map
              (fun he => Event.err_handler he.1 he.2) :=
  ⟨rfl, rfl, rfl,
   (C4_error_fifo (set_pcb (some 1) World.init) [-14, -15] [7, 8] 9 rfl rfl rfl).2.2.2.1⟩

/-! ## C5: cancellation -/

/-- With no entry point registered a stack event does not reach the core. -/
theorem stack_deliver_unregistered (e : StackEvent) (w : World)
    (hr : w.recv_fn = false) (hs : w.sent_fn = false) (he : w.err_fn = false) :
    stack_deliver e w = w := by
  cases e <;> simp [stack_deliver, hr, hs, he]

/-- With no entry point registered no stack event of a sequence reaches the core. -/
theorem stack_deliver_all_unregistered (es : List StackEvent) (w : World)
    (hr : w.recv_fn = false) (hs : w.sent_fn = false) (he : w.err_fn = false) :
    stack_deliver_all es w = w := by
  induction es with
  | nil => rfl
  | cons e es ih =>
    show stack_deliver_all es (stack_deliver e w) = w
    rw [stack_deliver_unregistered e w hr hs he, ih]

/-- With the three handler slots empty, a notification leaves them empty and invokes no
application handler. -/
theorem notification_on_empty_slots (e : StackEvent) (w : World)
    (hr : w.internal.recv = none) (hs : w.internal.sent = none) (he : w.internal.err = none) :
    (step e.toOp w).internal.recv = none ∧ (step e.toOp w).internal.sent = none ∧
    (step e.toOp w).internal.err = none ∧
    recv_calls (step e.toOp w).log = recv_calls w.log ∧
    sent_calls (step e.toOp w).log = sent_calls w.log ∧
    err_calls (step e.toOp w).log = err_calls w.log := by
  cases e with
  | data_arrived p err cr =>
    cases p <;> by_cases hcr : cr = ERR_OK <;> by_cases herr : err = ERR_OK <;>
      simp [StackEvent.toOp, step, recv_cb, hr, hs, he, hcr, herr, tcp_close, tcp_abort,
        tcp_recved, World.emit, recv_calls, sent_calls, err_calls, List.filterMap_append]
  | bytes_acked len =>
    by_cases hz : (w.internal.pending_len + UINT_MOD - u16_t len) % UINT_MOD = 0 <;>
      simp [StackEvent.toOp, step, sent_cb, hr, hs, he, hz, call_sent, World.emit,
        recv_calls, sent_calls, err_calls, List.filterMap_append]
  | error err =>
    simp [StackEvent.toOp, step, err_cb, hr, hs, he]

/-- With the three handler slots empty, no notification of a sequence invokes an
application handler. -/
theorem notifications_on_empty_slots (es : List StackEvent) (w : World)
    (hr : w.internal.recv = none) (hs : w.internal.sent = none) (he : w.internal.err = none) :
    recv_calls (run (es.map StackEvent.toOp) w).log = recv_calls w.log ∧
    sent_calls (run (es.map StackEvent.toOp) w).log = sent_calls w.log ∧
    err_calls (run (es.map StackEvent.toOp) w).log = err_calls w.log := by
  induction es generalizing w with
  | nil => exact ⟨rfl, rfl, rfl⟩
  | cons e es ih =>
    obtain ⟨h1, h2, h3, h4, h5, h6⟩ := notification_on_empty_slots e w hr hs he
    rw [List.map_cons, run_cons]
    obtain ⟨i1, i2, i3⟩ := ih (step e.toOp w) h1 h2 h3
    exact ⟨i1.trans h4, i2.trans h5, i3.trans h6⟩

/-- C5: cancellation silence.  On a bound socket `cancel()` empties the three handler
slots, unregisters the three entry points from the stack (`tcp_recv`, `tcp_sent`,
`tcp_err` with `NULL`), invokes no handler, and leaves every other field
(`pending_len`, `recv_buf`, `err_que`, `pcb_freed`, `pcb`) unchanged.  Every sequence
of stack events afterwards leaves the state and the log as `cancel()` left them, the
entry points being unregistered; and even were the entry points still entered, no
receive, send or error handler would be invoked, the slots being empty. -/
theorem C5_cancel_silence (w : World) (es : List StackEvent)
    (hbound : w.internal.pcb ≠ none) :
    cancel w =
      { w with
        internal := { w.internal with recv := none, sent := none, err := none },
        recv_fn := false, sent_fn := false, err_fn := false,
        log := w.log ++ [Event.stack (StackCall.tcp_recv w.internal.pcb false),
                         Event.stack (StackCall.tcp_sent w.internal.pcb false),
                         Event.stack (StackCall.tcp_err w.internal.pcb false)] } ∧
    handler_events (cancel w).log = handler_events w.log ∧
    stack_deliver_all es (cancel w) = cancel w ∧
    recv_calls (run (es.map StackEvent.toOp) (cancel w)).log = recv_calls w.log ∧
    sent_calls (run (es.map StackEvent.toOp) (cancel w)).log = sent_calls w.log ∧
    err_calls (run (es.map StackEvent.toOp) (cancel w)).log = err_calls w.log := by
  have hc := cancel_bound w hbound
  have hn := notifications_on_empty_slots es (cancel w) (by rw [hc]) (by rw [hc]) (by rw [hc])
  have hlog : recv_calls (cancel w).log = recv_calls w.log ∧
      sent_calls (cancel w).log = sent_calls w.log ∧
      err_calls (cancel w).log = err_calls w.log := by
    rw [hc]
    simp [recv_calls, sent_calls, err_calls, List.filterMap_append]
  refine ⟨hc, ?_, ?_, hn.1.trans hlog.1, hn.2.1.trans hlog.2.1, hn.2.2.trans hlog.2.2⟩
  · rw [hc]; simp [handler_events, List.filter_append]
  · apply stack_deliver_all_unregistered <;> rw [hc]

/-- C5 at a concrete input: three handlers pending on a freshly bound socket, `cancel()`,
then data, an acknowledgment and an error. -/
theorem C5_cancel_silence_witness :
    (run [Op.async_recv (some 7), Op.async_send [72, 73] (some 8), Op.async_err (some 9)]
      (set_pcb (some 1) World.init)).internal.pcb ≠ none ∧
    stack_deliver_all
        [StackEvent.data_arrived (some [65]) ERR_OK ERR_OK, StackEvent.bytes_acked 2,
         StackEvent.error (-14)]
        (cancel (run [Op.async_recv (some 7), Op.async_send [72, 73] (some 8),
          Op.async_err (some 9)] (set_pcb (some 1) World.init)))
      = cancel (run [Op.async_recv (some 7), Op.async_send [72, 73] (some 8),
          Op.async_err (some 9)] (set_pcb (some 1) World.init)) :=
  ⟨by decide,
   (C5_cancel_silence (run [Op.async_recv (some 7), Op.async_send [72, 73] (some 8),
      Op.async_err (some 9)] (set_pcb (some 1) World.init))
      [StackEvent.data_arrived (some [65]) ERR_OK ERR_OK, StackEvent.bytes_acked 2,
       StackEvent.error (-14)] (by decide)).2.2.1⟩

/-! ## C6: received bytes are neither lost, duplicated nor reordered -/

/-- One step keeps "a pending receive handler means an empty buffer" and accounts for
every byte: what was delivered plus what is buffered grows by what arrived. -/
theorem step_accounts_bytes (o : Op) (w : World)
    (hinv : w.internal.recv ≠ none → w.internal.recv_buf = [])
    (ho : o ≠ Op.async_recv none) :
    ((step o w).internal.recv ≠ none → (step o w).internal.recv_buf = []) ∧
    delivered_bytes (step o w).log ++ (step o w).internal.recv_buf
      = delivered_bytes w.log ++ w.internal.recv_buf ++ o.payload := by
  cases o with
  | set_pcb pcb =>
    simpa [step, set_pcb, tcp_nagle_disable, tcp_arg, tcp_recv, tcp_sent, tcp_err, World.emit,
      delivered_bytes_append, delivered_bytes, recv_calls, Op.payload] using hinv
  | async_recv handler =>
    cases handler with
    | none => exact absurd rfl ho
    | some h =>
      cases hf : w.internal.pcb_freed with
      | true =>
        rw [show step (Op.async_recv (some h)) w = async_recv (some h) w from rfl,
          async_recv_closed w h hf]
        simpa [delivered_bytes_append, delivered_bytes, recv_calls, Op.payload] using hinv
      | false =>
        by_cases hb : w.internal.recv_buf = []
        · rw [show step (Op.async_recv (some h)) w = async_recv (some h) w from rfl,
            async_recv_stored w (some h) hf hb]
          simp [hb, Op.payload]
        · rw [show step (Op.async_recv (some h)) w = async_recv (some h) w from rfl,
            async_recv_buffered w h hf hb]
          simp [delivered_bytes_append, delivered_bytes, recv_calls, Op.payload]
  | async_send packet handler =>
    cases hf : w.internal.pcb_freed <;> cases handler <;>
      simpa [step, async_send, hf, call_sent, tcp_write, tcp_output, World.emit,
        delivered_bytes_append, delivered_bytes, recv_calls, Op.payload] using hinv
  | async_err handler =>
    cases hq : w.internal.err_que <;> cases handler <;>
      simpa [step, async_err, hq, call_err, World.emit,
        delivered_bytes_append, delivered_bytes, recv_calls, Op.payload] using hinv
  | cancel =>
    by_cases hp : w.internal.pcb = none <;>
      simp [step, cancel, hp, tcp_recv, tcp_sent, tcp_err,
        delivered_bytes_append, delivered_bytes, recv_calls, Op.payload]
  | data_arrived p err cr =>
    cases p with
    | none =>
      by_cases hc : cr = ERR_OK <;>
        simpa [step, recv_cb, hc, tcp_close, tcp_abort, World.emit,
          delivered_bytes_append, delivered_bytes, recv_calls, Op.payload] using hinv
    | some pb =>
      cases hr : w.internal.recv with
      | none =>
        by_cases hc : cr = ERR_OK <;> by_cases he : err = ERR_OK <;>
          simp [step, recv_cb, hc, he, hr, tcp_close, tcp_abort, tcp_recved, World.emit,
            delivered_bytes_append, delivered_bytes, recv_calls, Op.payload, pbuf_to_str]
      | some f =>
        have hb : w.internal.recv_buf = [] := hinv (by rw [hr]; exact Option.some_ne_none f)
        by_cases hc : cr = ERR_OK <;> by_cases he : err = ERR_OK <;>
          simp [step, recv_cb, hc, he, hr, hb, tcp_close, tcp_abort, tcp_recved, World.emit,
            call_recv, delivered_bytes_append, delivered_bytes, recv_calls, Op.payload,
            pbuf_to_str]
  | bytes_acked len =>
    by_cases hz : (w.internal.pending_len + UINT_MOD - u16_t len) % UINT_MOD = 0
    · cases hs : w.internal.sent <;>
        simpa [step, sent_cb, hz, hs, call_sent, World.emit,
          delivered_bytes_append, delivered_bytes, recv_calls, Op.payload] using hinv
    · simpa [step, sent_cb, hz, Op.payload] using hinv
  | error err =>
    cases he : w.internal.err <;>
      simpa [step, err_cb, he, call_err, World.emit,
        delivered_bytes_append, delivered_bytes, recv_calls, Op.payload] using hinv

/-- A run keeps "a pending receive handler means an empty buffer" and accounts for every
byte. -/
theorem run_accounts_bytes (ops : List Op) (w : World)
    (hinv : w.internal.recv ≠ none → w.internal.recv_buf = [])
    (hops : Op.async_recv none ∉ ops) :
    ((run ops w).internal.recv ≠ none → (run ops w).internal.recv_buf = []) ∧
    delivered_bytes (run ops w).log ++ (run ops w).internal.recv_buf
      = delivered_bytes w.log ++ w.internal.recv_buf ++ arrived_bytes ops := by
  induction ops generalizing w with
  | nil => simpa [run, arrived_bytes] using hinv
  | cons o os ih =>
    have ho : o ≠ Op.async_recv none := fun h => hops (h ▸ List.mem_cons_self _ _)
    have hos : Op.async_recv none ∉ os := fun h => hops (List.mem_cons_of_mem _ h)
    obtain ⟨s1, s2⟩ := step_accounts_bytes o w hinv ho
    obtain ⟨i1, i2⟩ := ih (step o w) s1 hos
    rw [run_cons]
    refine ⟨i1, ?_⟩
    rw [i2, s2]
    simp [arrived_bytes, List.append_assoc]

/-- C6 (amended): no loss, no duplication, order kept.  Start in a state where a pending
receive handler means an empty buffer (a fresh or freshly bound socket is one).  For
every interleaving of operations and notifications in which `async_recv` is given a
callable handler, the bytes delivered to receive handlers followed by the bytes still
in `recv_buf` are exactly the bytes delivered and buffered at the start followed by the
bytes that arrived since, in arrival order; so the delivered bytes are an initial
segment of them.  If closure has not been signalled and `recv_buf` is not empty, the
next `async_recv(h)` hands all of `recv_buf` to `h` and empties it. -/
theorem C6_no_loss_no_duplication (w : World) (ops : List Op) (h : Nat)
    (hinv : w.internal.recv ≠ none → w.internal.recv_buf = [])
    (hops : Op.async_recv none ∉ ops) :
    delivered_bytes (run ops w).log ++ (run ops w).internal.recv_buf
      = delivered_bytes w.log ++ w.internal.recv_buf ++ arrived_bytes ops ∧
    delivered_bytes (run ops w).log
      <+: delivered_bytes w.log ++ w.internal.recv_buf ++ arrived_bytes ops ∧
    ((run ops w).internal.pcb_freed = false → (run ops w).internal.recv_buf ≠ [] →
      recv_calls (async_recv (some h) (run ops w)).log
        = recv_calls (run ops w).log ++ [(h, false, (run ops w).internal.recv_buf)] ∧
      (async_recv (some h) (run ops w)).internal.recv_buf = []) := by
  have hacc := (run_accounts_bytes ops w hinv hops).2
  refine ⟨hacc, ⟨(run ops w).internal.recv_buf, hacc⟩, ?_⟩
  intro hf hb
  rw [async_recv_buffered (run ops w) h hf hb]
  exact ⟨by simp [recv_calls_append, recv_calls], rfl⟩

/-- C6 at a concrete input: a pending handler, then three arrivals of one byte. -/
theorem C6_no_loss_no_duplication_witness :
    ((set_pcb (some 1) World.init).internal.recv ≠ none →
      (set_pcb (some 1) World.init).internal.recv_buf = []) ∧
    Op.async_recv none ∉
      [Op.async_recv (some 7), Op.data_arrived (some [65]) ERR_OK ERR_OK,
       Op.data_arrived (some [66]) ERR_OK ERR_OK, Op.data_arrived (some [67]) ERR_OK ERR_OK] ∧
    delivered_bytes (run [Op.async_recv (some 7), Op.data_arrived (some [65]) ERR_OK ERR_OK,
        Op.data_arrived (some [66]) ERR_OK ERR_OK, Op.data_arrived (some [67]) ERR_OK ERR_OK]
        (set_pcb (some 1) World.init)).log
      ++ (run [Op.async_recv (some 7), Op.data_arrived (some [65]) ERR_OK ERR_OK,
        Op.data_arrived (some [66]) ERR_OK ERR_OK, Op.data_arrived (some [67]) ERR_OK ERR_OK]
        (set_pcb (some 1) World.init)).internal.recv_buf
      = delivered_bytes (set_pcb (some 1) World.init).log
        ++ (set_pcb (some 1) World.init).internal.recv_buf
        ++ arrived_bytes [Op.async_recv (some 7), Op.data_arrived (some [65]) ERR_OK ERR_OK,
            Op.data_arrived (some [66]) ERR_OK ERR_OK,
            Op.data_arrived (some [67]) ERR_OK ERR_OK] :=
  ⟨by decide, by decide,
   (C6_no_loss_no_duplication (set_pcb (some 1) World.init)
      [Op.async_recv (some 7), Op.data_arrived (some [65]) ERR_OK ERR_OK,
       Op.data_arrived (some [66]) ERR_OK ERR_OK, Op.data_arrived (some [67]) ERR_OK ERR_OK]
      8 (by decide) (by decide)).1⟩

/-- C6 as stated fails when closure is signalled between an arrival and the next
`async_recv`.  On a freshly bound socket the byte 65 arrives and is buffered, then a
data-arrived notification without payload signals closure: `async_recv(7)` invokes the
handler with `closed = true` and an empty payload, the byte stays in `recv_buf`, and a
further `async_recv(8)` gets an empty payload again. -/
theorem C6_counterexample :
    (run [Op.data_arrived (some [65]) ERR_OK ERR_OK, Op.data_arrived none ERR_OK ERR_OK]
      (set_pcb (some 1) World.init)).internal.recv_buf = [65] ∧
    (run [Op.data_arrived (some [65]) ERR_OK ERR_OK, Op.data_arrived none ERR_OK ERR_OK]
      (set_pcb (some 1) World.init)).internal.pcb_freed = true ∧
    recv_calls (run [Op.data_arrived (some [65]) ERR_OK ERR_OK,
      Op.data_arrived none ERR_OK ERR_OK, Op.async_recv (some 7)]
      (set_pcb (some 1) World.init)).log = [(7, true, [])] ∧
    (run [Op.data_arrived (some [65]) ERR_OK ERR_OK,
      Op.data_arrived none ERR_OK ERR_OK, Op.async_recv (some 7)]
      (set_pcb (some 1) World.init)).internal.recv_buf = [65] ∧
    recv_calls (run [Op.data_arrived (some [65]) ERR_OK ERR_OK,
      Op.data_arrived none ERR_OK ERR_OK, Op.async_recv (some 7), Op.async_recv (some 8)]
      (set_pcb (some 1) World.init)).log = [(7, true, []), (8, true, [])] := by
  decide

/-! ## C7: a pending receive handler and closure -/

/-- C7 (amended): closure without data does not complete a pending receive handler.  In
a state where `h` is the pending receive handler, a data-arrived notification without
payload (whatever its status and whatever `tcp_close` answers) and an error
notification each set the closed flag, invoke no receive handler, and leave `h` in
the receive-handler slot. -/
theorem C7_closure_leaves_pending_recv (w : World) (h : Nat) (err cr e : err_t)
    (hrecv : w.internal.recv = some h) :
    (step (Op.data_arrived none err cr) w).internal.pcb_freed = true ∧
    (step (Op.data_arrived none err cr) w).internal.recv = some h ∧
    recv_calls (step (Op.data_arrived none err cr) w).log = recv_calls w.log ∧
    (step (Op.error e) w).internal.pcb_freed = true ∧
    (step (Op.error e) w).internal.recv = some h ∧
    recv_calls (step (Op.error e) w).log = recv_calls w.log := by
  refine ⟨?_, ?_, ?_, ?_, ?_, ?_⟩
  · by_cases hc : cr = ERR_OK <;> simp [step, recv_cb, hc, tcp_close, tcp_abort, World.emit]
  · by_cases hc : cr = ERR_OK <;>
      simp [step, recv_cb, hc, tcp_close, tcp_abort, World.emit, hrecv]
  · by_cases hc : cr = ERR_OK <;>
      simp [step, recv_cb, hc, tcp_close, tcp_abort, World.emit, recv_calls_append, recv_calls]
  · exact err_cb_sets_flag e w
  · cases he : w.internal.err <;> simp [step, err_cb, he, call_err, World.emit, hrecv]
  · cases he : w.internal.err <;>
      simp [step, err_cb, he, call_err, World.emit, recv_calls_append, recv_calls]

/-- C7 at a concrete input: handler 7 pending on a freshly bound socket, then a
data-arrived notification without payload. -/
theorem C7_closure_leaves_pending_recv_witness :
    (run [Op.async_recv (some 7)] (set_pcb (some 1) World.init)).internal.recv = some 7 ∧
    (step (Op.data_arrived none ERR_OK ERR_OK)
      (run [Op.async_recv (some 7)] (set_pcb (some 1) World.init))).internal.recv = some 7 :=
  ⟨rfl, (C7_closure_leaves_pending_recv
      (run [Op.async_recv (some 7)] (set_pcb (some 1) World.init)) 7 ERR_OK ERR_OK (-14)
      rfl).2.1⟩

/-- C7 as stated fails on a freshly bound socket with handler 7 pending: after a
data-arrived notification without payload, and likewise after an error notification
with code -14, the socket is closed, no handler at all has been invoked, and handler 7
is still in the receive-handler slot. -/
theorem C7_counterexample :
    (run [Op.async_recv (some 7)] (set_pcb (some 1) World.init)).internal.recv = some 7 ∧
    (run [Op.async_recv (some 7)] (set_pcb (some 1) World.init)).internal.pcb_freed = false ∧
    (run [Op.async_recv (some 7), Op.data_arrived none ERR_OK ERR_OK]
      (set_pcb (some 1) World.init)).internal.pcb_freed = true ∧
    handler_events (run [Op.async_recv (some 7), Op.data_arrived none ERR_OK ERR_OK]
      (set_pcb (some 1) World.init)).log = [] ∧
    (run [Op.async_recv (some 7), Op.data_arrived none ERR_OK ERR_OK]
      (set_pcb (some 1) World.init)).internal.recv = some 7 ∧
    (run [Op.async_recv (some 7), Op.error (-14)]
      (set_pcb (some 1) World.init)).internal.pcb_freed = true ∧
    handler_events (run [Op.async_recv (some 7), Op.error (-14)]
      (set_pcb (some 1) World.init)).log = [] ∧
    (run [Op.async_recv (some 7), Op.error (-14)]
      (set_pcb (some 1) World.init)).internal.recv = some 7 := by
  decide

/-! ## C8: stack calls after closure -/

/-- C8 at its failing inputs, on a freshly bound socket with connection object 1.  After
closure by a data-arrived notification without payload, and likewise after closure by
an error notification, `cancel()` issues `tcp_recv`, `tcp_sent` and `tcp_err` on the
connection object.  A data-arrived notification with a payload and a failing status
issues `tcp_recved` on it after its own `tcp_close`.  The destructor, which tests
`pcb_freed`, issues nothing after closure. -/
theorem C8_stack_calls_after_close :
    (run [Op.data_arrived none ERR_OK ERR_OK] (set_pcb (some 1) World.init)).internal.pcb_freed
      = true ∧
    stack_calls (run [Op.data_arrived none ERR_OK ERR_OK, Op.cancel]
        (set_pcb (some 1) World.init)).log
      = stack_calls (run [Op.data_arrived none ERR_OK ERR_OK]
          (set_pcb (some 1) World.init)).log
        ++ [StackCall.tcp_recv (some 1) false, StackCall.tcp_sent (some 1) false,
            StackCall.tcp_err (some 1) false] ∧
    (run [Op.error (-14)] (set_pcb (some 1) World.init)).internal.pcb_freed = true ∧
    stack_calls (run [Op.error (-14), Op.cancel] (set_pcb (some 1) World.init)).log
      = stack_calls (run [Op.error (-14)] (set_pcb (some 1) World.init)).log
        ++ [StackCall.tcp_recv (some 1) false, StackCall.tcp_sent (some 1) false,
            StackCall.tcp_err (some 1) false] ∧
    stack_calls (run [Op.data_arrived (some [65]) ERR_ABRT ERR_OK]
        (set_pcb (some 1) World.init)).log
      = stack_calls (set_pcb (some 1) World.init).log
        ++ [StackCall.tcp_close (some 1), StackCall.tcp_recved (some 1) 1] ∧
    stack_calls (destroy ERR_OK (run [Op.error (-14)] (set_pcb (some 1) World.init))).log
      = stack_calls (run [Op.error (-14)] (set_pcb (some 1) World.init)).log := by
  decide

/-! ## C9: the closed flag is monotone -/

/-- C9: the closed flag is monotone.  A freshly constructed state has
`pcb_freed = false`.  Every operation and notification (`set_pcb`, `async_recv`,
`async_send`, `async_err`, `cancel`, data-arrived, bytes-acknowledged, error), entered
directly or dispatched by the stack, keeps `pcb_freed = true`.  If an operation turns
the flag from false to true, it is a data-arrived notification with a failing status or
no payload, or an error notification; and each of these does set the flag. -/
theorem C9_closed_monotone :
    World.init.internal.pcb_freed = false ∧
    (∀ (o : Op) (w : World), w.internal.pcb_freed = true →
      (step o w).internal.pcb_freed = true) ∧
    (∀ (e : StackEvent) (w : World), w.internal.pcb_freed = true →
      (stack_deliver e w).internal.pcb_freed = true) ∧
    (∀ (o : Op) (w : World), w.internal.pcb_freed = false →
      (step o w).internal.pcb_freed = true →
      (∃ p err cr, o = Op.data_arrived p err cr ∧ (err ≠ ERR_OK ∨ p = none)) ∨
      (∃ err, o = Op.error err)) ∧
    (∀ (w : World) (p : Option Bytes) (err cr : err_t), err ≠ ERR_OK ∨ p = none →
      (step (Op.data_arrived p err cr) w).internal.pcb_freed = true) ∧
    (∀ (w : World) (err : err_t), (step (Op.error err) w).internal.pcb_freed = true) := by
  refine ⟨rfl, step_keeps_closed, ?_, ?_, ?_, ?_⟩
  · intro e w h
    cases e with
    | data_arrived p err cr =>
      simp only [stack_deliver]
      split
      · exact step_keeps_closed (Op.data_arrived p err cr) w h
      · exact h
    | bytes_acked len =>
      simp only [stack_deliver]
      split
      · exact step_keeps_closed (Op.bytes_acked len) w h
      · exact h
    | error err =>
      simp only [stack_deliver]
      split
      · exact step_keeps_closed (Op.error err) w h
      · exact h
  · intro o w hf ht
    by_cases hd : ∃ p err cr, o = Op.data_arrived p err cr
    · obtain ⟨p, err, cr, rfl⟩ := hd
      left
      refine ⟨p, err, cr, rfl, ?_⟩
      by_contra hn
      push_neg at hn
      obtain ⟨herr, hp⟩ := hn
      obtain ⟨pb, rfl⟩ := Option.ne_none_iff_exists'.mp hp
      subst herr
      have := recv_cb_ok_keeps_flag w.internal.pcb pb cr w
      simp only [step] at ht
      rw [this, hf] at ht
      exact Bool.noConfusion ht
    · by_cases he : ∃ err, o = Op.error err
      · exact Or.inr he
      · push_neg at hd he
        have := app_op_keeps_flag o w hd he
        rw [this, hf] at ht
        exact Bool.noConfusion ht
  · intro w p err cr hc
    exact recv_cb_closing_sets_flag w.internal.pcb p err cr w hc
  · intro w err
    exact err_cb_sets_flag err w

/-- C9 at a concrete input: `cancel()` after an error notification leaves the socket
closed. -/
theorem C9_closed_monotone_witness :
    (run [Op.error (-14)] (set_pcb (some 1) World.init)).internal.pcb_freed = true ∧
    (step Op.cancel (run [Op.error (-14)] (set_pcb (some 1) World.init))).internal.pcb_freed
      = true :=
  ⟨rfl, C9_closed_monotone.2.1 Op.cancel (run [Op.error (-14)] (set_pcb (some 1) World.init)) rfl⟩

/-! ## C10: the three cases of async_recv -/

/-- C10: the three cases of `async_recv(h)`.  (1) Closed: `h` is invoked with
`closed = true` and an empty payload, and no field of the state changes.  (2) Not
closed, `recv_buf` not empty: `h` is invoked with `closed = false` and all of
`recv_buf`, `recv_buf` becomes empty, and nothing else changes (the receive-handler
slot is not written).  (3) Not closed, `recv_buf` empty: `h` is stored in the
receive-handler slot, nothing else changes and nothing is invoked. -/
theorem C10_async_recv_cases (w : World) (h : Nat) :
    (w.internal.pcb_freed = true →
      async_recv (some h) w = { w with log := w.log ++ [Event.recv_handler h true []] }) ∧
    (w.internal.pcb_freed = false → w.internal.recv_buf ≠ [] →
      async_recv (some h) w =
        { w with
          internal := { w.internal with recv_buf := [] },
          log := w.log ++ [Event.recv_handler h false w.internal.recv_buf] }) ∧
    (w.internal.pcb_freed = false → w.internal.recv_buf = [] →
      async_recv (some h) w = { w with internal := { w.internal with recv := some h } }) :=
  ⟨async_recv_closed w h, async_recv_buffered w h, async_recv_stored w (some h)⟩

/-- C10 at a concrete input: `WO` is buffered on a freshly bound socket, then
`async_recv(7)`. -/
theorem C10_async_recv_cases_witness :
    (run [Op.data_arrived (some [87, 79]) ERR_OK ERR_OK]
      (set_pcb (some 1) World.init)).internal.pcb_freed = false ∧
    (run [Op.data_arrived (some [87, 79]) ERR_OK ERR_OK]
      (set_pcb (some 1) World.init)).internal.recv_buf ≠ [] ∧
    async_recv (some 7)
        (run [Op.data_arrived (some [87, 79]) ERR_OK ERR_OK] (set_pcb (some 1) World.init))
      = { run [Op.data_arrived (some [87, 79]) ERR_OK ERR_OK] (set_pcb (some 1) World.init) with
          internal := { (run [Op.data_arrived (some [87, 79]) ERR_OK ERR_OK]
            (set_pcb (some 1) World.init)).internal with recv_buf := [] },
          log := (run [Op.data_arrived (some [87, 79]) ERR_OK ERR_OK]
            (set_pcb (some 1) World.init)).log ++ [Event.recv_handler 7 false
              (run [Op.data_arrived (some [87, 79]) ERR_OK ERR_OK]
                (set_pcb (some 1) World.init)).internal.recv_buf] } :=
  ⟨rfl, by decide,
   (C10_async_recv_cases (run [Op.data_arrived (some [87, 79]) ERR_OK ERR_OK]
      (set_pcb (some 1) World.init)) 7).2.1 rfl (by decide)⟩

/-! ## More on the operations, case by case -/

/-- The step of `async_recv`. -/
theorem step_async_recv (handler : RecvHandler) (w : World) :
    step (Op.async_recv handler) w = async_recv handler w := rfl

/-- The step of `async_send`. -/
theorem step_async_send (packet : Bytes) (handler : SentHandler) (w : World) :
    step (Op.async_send packet handler) w = async_send packet handler w := rfl

/-- The step of `async_err`. -/
theorem step_async_err (handler : ErrHandler) (w : World) :
    step (Op.async_err handler) w = async_err handler w := rfl

/-- The step of the data-arrived notification. -/
theorem step_data_arrived (p : Option Bytes) (err cr : err_t) (w : World) :
    step (Op.data_arrived p err cr) w = (recv_cb w.internal.pcb p err cr w).1 := rfl

/-- The step of the bytes-acknowledged notification. -/
theorem step_bytes_acked (len : Nat) (w : World) :
    step (Op.bytes_acked len) w = (sent_cb len w).1 := rfl

/-- The step of the error notification. -/
theorem step_error (err : err_t) (w : World) : step (Op.error err) w = err_cb err w := rfl

/-- An invocation of a receive handler writes no field of the connection state. -/
theorem call_recv_internal (handler : RecvHandler) (closed : Bool) (packet : Bytes)
    (w : World) : (call_recv handler closed packet w).internal = w.internal := by
  cases handler <;> rfl

/-- An invocation of a send handler writes no field of the connection state. -/
theorem call_sent_internal (handler : SentHandler) (closed : Bool) (w : World) :
    (call_sent handler closed w).internal = w.internal := by
  cases handler <;> rfl

/-- An invocation of an error handler writes no field of the connection state. -/
theorem call_err_internal (handler : ErrHandler) (err : err_t) (w : World) :
    (call_err handler err w).internal = w.internal := by
  cases handler <;> rfl

/-- The handler events of a concatenated log. -/
theorem handler_events_append (xs ys : List Event) :
    handler_events (xs ++ ys) = handler_events xs ++ handler_events ys := by
  simp [handler_events, List.filter_append]

/-- The stack calls of a concatenated log. -/
theorem stack_calls_append (xs ys : List Event) :
    stack_calls (xs ++ ys) = stack_calls xs ++ stack_calls ys := by
  simp [stack_calls, List.filterMap_append]

/-- The closure branch invokes no handler. -/
theorem handler_events_close_events (tpcb : tcp_pcb_ptr) (cr : err_t) :
    handler_events (close_events tpcb cr) = [] := by
  by_cases hc : cr = ERR_OK <;> simp [close_events, handler_events, hc]

/-- The closure branch invokes no receive handler. -/
theorem recv_calls_close_events (tpcb : tcp_pcb_ptr) (cr : err_t) :
    recv_calls (close_events tpcb cr) = [] := by
  by_cases hc : cr = ERR_OK <;> simp [close_events, recv_calls, hc]

/-- The closure branch invokes no send handler. -/
theorem sent_calls_close_events (tpcb : tcp_pcb_ptr) (cr : err_t) :
    sent_calls (close_events tpcb cr) = [] := by
  by_cases hc : cr = ERR_OK <;> simp [close_events, sent_calls, hc]

/-- The closure branch, taken or not, invokes no receive handler. -/
theorem recv_calls_maybe_close (c : Prop) [Decidable c] (tpcb : tcp_pcb_ptr) (cr : err_t) :
    recv_calls (if c then close_events tpcb cr else []) = [] := by
  by_cases h : c
  · rw [if_pos h, recv_calls_close_events]
  · rw [if_neg h]; rfl

/-- The closure branch, taken or not, invokes no send handler. -/
theorem sent_calls_maybe_close (c : Prop) [Decidable c] (tpcb : tcp_pcb_ptr) (cr : err_t) :
    sent_calls (if c then close_events tpcb cr else []) = [] := by
  by_cases h : c
  · rw [if_pos h, sent_calls_close_events]
  · rw [if_neg h]; rfl

/-- The data-arrived notification without payload: the closed flag is set and the
connection is closed or aborted; nothing else happens. -/
theorem recv_cb_no_payload (tpcb : tcp_pcb_ptr) (err cr : err_t) (w : World) :
    recv_cb tpcb none err cr w =
      ({ w with
         internal := { w.internal with pcb_freed := true },
         log := w.log ++ close_events tpcb cr },
       if cr ≠ ERR_OK then ERR_ABRT else ERR_OK) := by
  by_cases hc : cr = ERR_OK <;>
    simp [recv_cb, hc, close_events, tcp_close, tcp_abort, World.emit]

/-- The data-arrived notification with a payload and a receive handler pending: after
the closure branch (if the status is failing) and `tcp_recved`, the slot is emptied
and then the handler is invoked with the closed flag as it is by then. -/
theorem recv_cb_payload_pending (tpcb : tcp_pcb_ptr) (pb : Bytes) (err cr : err_t) (w : World)
    (f : Nat) (hr : w.internal.recv = some f) :
    (recv_cb tpcb (some pb) err cr w).1 =
      call_recv (some f) (w.internal.pcb_freed || decide (err ≠ ERR_OK)) (pbuf_to_str pb)
        { w with
          internal := { w.internal with
            pcb_freed := w.internal.pcb_freed || decide (err ≠ ERR_OK), recv := none },
          log := w.log ++ (if err ≠ ERR_OK then close_events tpcb cr else [])
            ++ [Event.stack (StackCall.tcp_recved w.internal.pcb (u16_t pb.length))] } := by
  by_cases hc : cr = ERR_OK <;> by_cases he : err = ERR_OK <;>
    simp [recv_cb, hc, he, hr, close_events, tcp_close, tcp_abort, tcp_recved, call_recv,
      World.emit, pbuf_to_str]

/-- The data-arrived notification with a payload and no receive handler pending: after
the closure branch (if the status is failing) and `tcp_recved`, the payload is
appended to the buffer. -/
theorem recv_cb_payload_buffered (tpcb : tcp_pcb_ptr) (pb : Bytes) (err cr : err_t) (w : World)
    (hr : w.internal.recv = none) :
    (recv_cb tpcb (some pb) err cr w).1 =
      { w with
        internal := { w.internal with
          pcb_freed := w.internal.pcb_freed || decide (err ≠ ERR_OK),
          recv_buf := w.internal.recv_buf ++ pbuf_to_str pb },
        log := w.log ++ (if err ≠ ERR_OK then close_events tpcb cr else [])
          ++ [Event.stack (StackCall.tcp_recved w.internal.pcb (u16_t pb.length))] } := by
  by_cases hc : cr = ERR_OK <;> by_cases he : err = ERR_OK <;>
    simp [recv_cb, hc, he, hr, close_events, tcp_close, tcp_abort, tcp_recved,
      World.emit, pbuf_to_str]

/-- The return value of the data-arrived notification. -/
theorem recv_cb_return (tpcb : tcp_pcb_ptr) (p : Option Bytes) (err cr : err_t) (w : World) :
    (recv_cb tpcb p err cr w).2 =
      if (err ≠ ERR_OK ∨ p = none) ∧ cr ≠ ERR_OK then ERR_ABRT else ERR_OK := by
  cases p with
  | none => rw [recv_cb_no_payload]; simp
  | some pb =>
    by_cases hc : cr = ERR_OK <;> by_cases he : err = ERR_OK <;>
      cases hr : w.internal.recv <;>
      simp [recv_cb, hc, he, hr, tcp_close, tcp_abort, tcp_recved, call_recv, World.emit]

/-- The bytes-acknowledged notification when the count reaches zero: the count is
written, the slot is emptied, and then what was in the slot is invoked. -/
theorem sent_cb_fires (len : Nat) (w : World)
    (hz : (w.internal.pending_len + UINT_MOD - u16_t len) % UINT_MOD = 0) :
    (sent_cb len w).1 =
      call_sent w.internal.sent w.internal.pcb_freed
        { w with internal := { w.internal with pending_len := 0, sent := none } } := by
  simp [sent_cb, hz]

/-- The bytes-acknowledged notification when the count does not reach zero: only the
count is written. -/
theorem sent_cb_waits (len : Nat) (w : World)
    (hz : (w.internal.pending_len + UINT_MOD - u16_t len) % UINT_MOD ≠ 0) :
    (sent_cb len w).1 =
      { w with internal := { w.internal with
          pending_len := (w.internal.pending_len + UINT_MOD - u16_t len) % UINT_MOD } } := by
  simp [sent_cb, hz]

/-- The count after a bytes-acknowledged notification that does not bring it to zero. -/
theorem sent_cb_waits_pending_len (len : Nat) (w : World)
    (hz : (w.internal.pending_len + UINT_MOD - u16_t len) % UINT_MOD ≠ 0) :
    (sent_cb len w).1.internal.pending_len
      = (w.internal.pending_len + UINT_MOD - u16_t len) % UINT_MOD := by
  rw [sent_cb_waits len w hz]

/-- A bytes-acknowledged notification that does not bring the count to zero logs
nothing. -/
theorem sent_cb_waits_log (len : Nat) (w : World)
    (hz : (w.internal.pending_len + UINT_MOD - u16_t len) % UINT_MOD ≠ 0) :
    (sent_cb len w).1.log = w.log := by
  rw [sent_cb_waits len w hz]

/-- The error notification with an error handler pending: the closed flag is set, the
slot is emptied, and then the handler is invoked with the code. -/
theorem err_cb_pending (e : err_t) (w : World) (f : Nat) (he : w.internal.err = some f) :
    err_cb e w =
      call_err (some f) e
        { w with internal := { w.internal with pcb_freed := true, err := none } } := by
  simp [err_cb, he]

/-- The count of pending bytes after `async_send` on a socket that is not closed. -/
theorem async_send_pending_len (w : World) (packet : Bytes) (handler : SentHandler)
    (hfree : w.internal.pcb_freed = false) :
    (async_send packet handler w).internal.pending_len
      = (w.internal.pending_len + packet.length) % UINT_MOD := by
  rw [async_send_open w packet handler hfree]

/-- The log after `async_send` on a socket that is not closed. -/
theorem async_send_log (w : World) (packet : Bytes) (handler : SentHandler)
    (hfree : w.internal.pcb_freed = false) :
    (async_send packet handler w).log
      = w.log ++ [Event.stack (StackCall.tcp_write w.internal.pcb packet (u16_t packet.length)),
                  Event.stack (StackCall.tcp_output w.internal.pcb)] := by
  rw [async_send_open w packet handler hfree]

/-- Two `async_send` in a row on a socket that is not closed: both payloads are
counted, the second handler is the pending one, and no handler is invoked. -/
theorem async_send_twice (w : World) (p1 p2 : Bytes) (h1 h2 : SentHandler)
    (hfree : w.internal.pcb_freed = false) :
    (async_send p2 h2 (async_send p1 h1 w)).internal.pcb_freed = false ∧
    (async_send p2 h2 (async_send p1 h1 w)).internal.sent = h2 ∧
    (async_send p2 h2 (async_send p1 h1 w)).internal.pending_len
      = ((w.internal.pending_len + p1.length) % UINT_MOD + p2.length) % UINT_MOD ∧
    sent_calls (async_send p2 h2 (async_send p1 h1 w)).log = sent_calls w.log := by
  have hf1 : (async_send p1 h1 w).internal.pcb_freed = false := by
    rw [async_send_open w p1 h1 hfree]; exact hfree
  rw [async_send_open _ p2 h2 hf1]
  refine ⟨hf1, rfl, ?_, ?_⟩
  · show ((async_send p1 h1 w).internal.pending_len + p2.length) % UINT_MOD = _
    rw [async_send_pending_len w p1 h1 hfree]
  · show sent_calls ((async_send p1 h1 w).log ++ _) = _
    rw [async_send_log w p1 h1 hfree, sent_calls_append, sent_calls_append]
    simp [sent_calls]

/-- What the freshly bound socket looks like: the constructor's state with the
connection object set, and no handler invoked. -/
theorem set_pcb_fresh (pcb : tcp_pcb_ptr) :
    (set_pcb pcb World.init).internal = { SocketInternal.init with pcb := pcb } ∧
    handler_events (set_pcb pcb World.init).log = [] :=
  ⟨rfl, rfl⟩

/-- The length of `big_packet`. -/
theorem big_packet_length : big_packet.length = U16_MOD + 1 :=
  List.length_replicate _ _

/-! ## C11: the two cases of async_send -/

/-- C11 (amended): the two cases of `async_send(packet, h)`.  Closed: `h` is invoked
at once with `closed = true`, nothing is issued to the stack and no field of the state
changes (in particular not `pending_len` and not the pending send handler).  Not
closed: `h` is not invoked, `h` becomes the pending send handler, exactly one
`tcp_write` (the payload with copy flag, its length converted to `u16_t`) followed by
one `tcp_output` is issued, and `pending_len` becomes the old value plus the payload
length in the arithmetic of `unsigned`, that is modulo `2 ^ 32`; no other field
changes.  When the sum is below `2 ^ 32`, `pending_len` is the old value plus the
payload length. -/
theorem C11_async_send_cases (w : World) (packet : Bytes) (h : Nat) :
    (w.internal.pcb_freed = true →
      async_send packet (some h) w = { w with log := w.log ++ [Event.sent_handler h true] }) ∧
    (w.internal.pcb_freed = false →
      async_send packet (some h) w =
        { w with
          internal := { w.internal with
            pending_len := (w.internal.pending_len + packet.length) % UINT_MOD,
            sent := some h },
          log := w.log ++
            [Event.stack (StackCall.tcp_write w.internal.pcb packet (packet.length % U16_MOD)),
             Event.stack (StackCall.tcp_output w.internal.pcb)] }) ∧
    (w.internal.pcb_freed = false → w.internal.pending_len + packet.length < UINT_MOD →
      (async_send packet (some h) w).internal.pending_len
        = w.internal.pending_len + packet.length) :=
  ⟨async_send_closed w packet h, async_send_open w packet (some h),
   fun hf hlt => by rw [async_send_open w packet (some h) hf]; exact Nat.mod_eq_of_lt hlt⟩

/-- C11 at a concrete input: `HELLO` sent on a freshly bound socket. -/
theorem C11_async_send_cases_witness :
    (set_pcb (some 1) World.init).internal.pcb_freed = false ∧
    (set_pcb (some 1) World.init).internal.pending_len
      + ([72, 69, 76, 76, 79] : Bytes).length < UINT_MOD ∧
    (async_send [72, 69, 76, 76, 79] (some 7) (set_pcb (some 1) World.init)).internal.pending_len
      = (set_pcb (some 1) World.init).internal.pending_len
        + ([72, 69, 76, 76, 79] : Bytes).length :=
  ⟨rfl, by decide,
   (C11_async_send_cases (set_pcb (some 1) World.init) [72, 69, 76, 76, 79] 7).2.2
      rfl (by decide)⟩

/-- C11 as stated fails where the sum does not fit `unsigned`.  On a freshly bound
socket (`pending_len = 0`) `async_send` of a payload of `2 ^ 32 + 5` bytes leaves
`pending_len = 5`.  And after a bytes-acknowledged notification of 1 byte on the
freshly bound socket `pending_len` is `2 ^ 32 - 1`, and `async_send` of one byte makes
it 0. -/
theorem C11_counterexample :
    (set_pcb (some 1) World.init).internal.pcb_freed = false ∧
    (set_pcb (some 1) World.init).internal.pending_len = 0 ∧
    (async_send huge_packet (some 7) (set_pcb (some 1) World.init)).internal.pending_len = 5 ∧
    (set_pcb (some 1) World.init).internal.pending_len + huge_packet.length ≠ 5 ∧
    (run [Op.bytes_acked 1] (set_pcb (some 1) World.init)).internal.pcb_freed = false ∧
    (run [Op.bytes_acked 1] (set_pcb (some 1) World.init)).internal.pending_len = 4294967295 ∧
    (run [Op.bytes_acked 1, Op.async_send [65] (some 7)]
      (set_pcb (some 1) World.init)).internal.pending_len = 0 := by
  have h0 : (set_pcb (some 1) World.init).internal.pending_len = 0 := rfl
  have hlen : (0 + huge_packet.length) % UINT_MOD = 5 := by
    rw [huge_packet_length]; decide
  have hne : 0 + huge_packet.length ≠ 5 := by
    rw [huge_packet_length]; decide
  refine ⟨rfl, rfl, ?_, ?_, by decide, by decide, by decide⟩
  · rw [async_send_pending_len _ _ _ rfl, h0, hlen]
  · rw [h0]; exact hne

/-! ## C12: the end-to-end scenario -/

/-- C12: the end-to-end scenario, on a freshly bound socket, for every payload `x` of
the last send and whatever `tcp_close` answers.  After each prefix of the trace the
handler invocations so far are: none after `async_send(HELLO, h1)`; `h1(closed = false)`
after the acknowledgment of 5 bytes; the same after `WORLD` arrived;
`h2(false, WORLD)` added by `async_recv(h2)`; nothing added by the data-arrived
notification without payload; `h3(true, empty)` added by `async_recv(h3)`;
`h4(true)` added by `async_send(x, h4)`.  So the four handlers are invoked once each,
in this order, `h1` by the acknowledgment and `h2`, `h3`, `h4` inline by their own
calls. -/
theorem C12_scenario (pcb : tcp_pcb_ptr) (x : Bytes) (h1 h2 h3 h4 : Nat) (close_res : err_t) :
    handler_events (run ((scenario x h1 h2 h3 h4 close_res).take 1)
      (set_pcb pcb World.init)).log = [] ∧
    handler_events (run ((scenario x h1 h2 h3 h4 close_res).take 2)
      (set_pcb pcb World.init)).log = [Event.sent_handler h1 false] ∧
    handler_events (run ((scenario x h1 h2 h3 h4 close_res).take 3)
      (set_pcb pcb World.init)).log = [Event.sent_handler h1 false] ∧
    handler_events (run ((scenario x h1 h2 h3 h4 close_res).take 4)
      (set_pcb pcb World.init)).log
      = [Event.sent_handler h1 false, Event.recv_handler h2 false [87, 79, 82, 76, 68]] ∧
    handler_events (run ((scenario x h1 h2 h3 h4 close_res).take 5)
      (set_pcb pcb World.init)).log
      = [Event.sent_handler h1 false, Event.recv_handler h2 false [87, 79, 82, 76, 68]] ∧
    handler_events (run ((scenario x h1 h2 h3 h4 close_res).take 6)
      (set_pcb pcb World.init)).log
      = [Event.sent_handler h1 false, Event.recv_handler h2 false [87, 79, 82, 76, 68],
         Event.recv_handler h3 true []] ∧
    handler_events (run (scenario x h1 h2 h3 h4 close_res) (set_pcb pcb World.init)).log
      = [Event.sent_handler h1 false, Event.recv_handler h2 false [87, 79, 82, 76, 68],
         Event.recv_handler h3 true [], Event.sent_handler h4 true] := by
  obtain ⟨i0, l0⟩ := set_pcb_fresh pcb
  generalize set_pcb pcb World.init = w0 at *
  have t1 : (scenario x h1 h2 h3 h4 close_res).take 1
      = [Op.async_send [72, 69, 76, 76, 79] (some h1)] := rfl
  have t2 : (scenario x h1 h2 h3 h4 close_res).take 2
      = [Op.async_send [72, 69, 76, 76, 79] (some h1), Op.bytes_acked 5] := rfl
  have t3 : (scenario x h1 h2 h3 h4 close_res).take 3
      = [Op.async_send [72, 69, 76, 76, 79] (some h1), Op.bytes_acked 5,
         Op.data_arrived (some [87, 79, 82, 76, 68]) ERR_OK ERR_OK] := rfl
  have t4 : (scenario x h1 h2 h3 h4 close_res).take 4
      = [Op.async_send [72, 69, 76, 76, 79] (some h1), Op.bytes_acked 5,
         Op.data_arrived (some [87, 79, 82, 76, 68]) ERR_OK ERR_OK,
         Op.async_recv (some h2)] := rfl
  have t5 : (scenario x h1 h2 h3 h4 close_res).take 5
      = [Op.async_send [72, 69, 76, 76, 79] (some h1), Op.bytes_acked 5,
         Op.data_arrived (some [87, 79, 82, 76, 68]) ERR_OK ERR_OK,
         Op.async_recv (some h2), Op.data_arrived none ERR_OK close_res] := rfl
  have t6 : (scenario x h1 h2 h3 h4 close_res).take 6
      = [Op.async_send [72, 69, 76, 76, 79] (some h1), Op.bytes_acked 5,
         Op.data_arrived (some [87, 79, 82, 76, 68]) ERR_OK ERR_OK,
         Op.async_recv (some h2), Op.data_arrived none ERR_OK close_res,
         Op.async_recv (some h3)] := rfl
  rw [t1, t2, t3, t4, t5, t6]
  unfold scenario
  repeat rw [run_cons]
  repeat rw [run_nil]
  repeat rw [step_async_send]
  repeat rw [step_async_recv]
  repeat rw [step_bytes_acked]
  repeat rw [step_data_arrived]
  -- send HELLO
  have s1 := async_send_open w0 [72, 69, 76, 76, 79] (some h1) (by rw [i0]; rfl)
  generalize async_send [72, 69, 76, 76, 79] (some h1) w0 = w1 at *
  have i1 : w1.internal = { SocketInternal.init with
      pcb := pcb, pending_len := 5, sent := some h1 } := by
    rw [s1]; simp [i0, SocketInternal.init]; decide
  have l1 : handler_events w1.log = [] := by
    rw [s1]; simp [handler_events_append, l0]; rfl
  clear s1 i0 l0
  -- 5 bytes acknowledged
  have s2 := sent_cb_fires 5 w1 (by rw [i1]; show (5 + UINT_MOD - u16_t 5) % UINT_MOD = 0; decide)
  generalize (sent_cb 5 w1).1 = w2 at *
  have i2 : w2.internal = { SocketInternal.init with pcb := pcb } := by
    rw [s2, call_sent_internal]; simp [i1, SocketInternal.init]
  have l2 : handler_events w2.log = [Event.sent_handler h1 false] := by
    rw [s2, i1]; simp [call_sent, World.emit, handler_events_append, l1, SocketInternal.init]
    rfl
  clear s2 i1
  -- WORLD arrives
  have s3 := recv_cb_ok_buffered w2 [87, 79, 82, 76, 68] ERR_OK (by rw [i2]; rfl)
  generalize (recv_cb w2.internal.pcb (some [87, 79, 82, 76, 68]) ERR_OK ERR_OK w2).1 = w3 at *
  have i3 : w3.internal = { SocketInternal.init with
      pcb := pcb, recv_buf := [87, 79, 82, 76, 68] } := by
    rw [s3]; simp [i2, SocketInternal.init]
  have l3 : handler_events w3.log = [Event.sent_handler h1 false] := by
    rw [s3]; simp [handler_events_append, l2]; rfl
  clear s3 i2
  -- receive
  have s4 := async_recv_buffered w3 h2 (by rw [i3]; rfl) (by rw [i3]; simp)
  generalize async_recv (some h2) w3 = w4 at *
  have i4 : w4.internal = { SocketInternal.init with pcb := pcb } := by
    rw [s4]; simp [i3, SocketInternal.init]
  have l4 : handler_events w4.log
      = [Event.sent_handler h1 false, Event.recv_handler h2 false [87, 79, 82, 76, 68]] := by
    rw [s4, i3]; simp [handler_events_append, l3]; rfl
  clear s4 i3
  -- closure without payload
  have s5 : (recv_cb w4.internal.pcb none ERR_OK close_res w4).1 = _ :=
    congrArg Prod.fst (recv_cb_no_payload w4.internal.pcb ERR_OK close_res w4)
  generalize (recv_cb w4.internal.pcb none ERR_OK close_res w4).1 = w5 at *
  have i5 : w5.internal.pcb_freed = true := by rw [s5]
  have l5 : handler_events w5.log
      = [Event.sent_handler h1 false, Event.recv_handler h2 false [87, 79, 82, 76, 68]] := by
    rw [s5]; simp [handler_events_append, handler_events_close_events, l4]
  clear s5 i4
  -- receive after closure
  have s6 := async_recv_closed w5 h3 i5
  generalize async_recv (some h3) w5 = w6 at *
  have i6 : w6.internal.pcb_freed = true := by rw [s6]; exact i5
  have l6 : handler_events w6.log
      = [Event.sent_handler h1 false, Event.recv_handler h2 false [87, 79, 82, 76, 68],
         Event.recv_handler h3 true []] := by
    rw [s6]; simp [handler_events_append, l5]; rfl
  clear s6
  -- send after closure
  have s7 := async_send_closed w6 x h4 i6
  have l7 : handler_events (async_send x (some h4) w6).log
      = [Event.sent_handler h1 false, Event.recv_handler h2 false [87, 79, 82, 76, 68],
         Event.recv_handler h3 true [], Event.sent_handler h4 true] := by
    rw [s7]; simp [handler_events_append, l6]; rfl
  exact ⟨l1, l2, l3, l4, l5, l6, l7⟩

/-! ## C13: payload and closure in one notification -/

/-- C13: payload and closure in one data-arrived notification.  With a payload `p` and
a failing status the closed flag is set before delivery: if a receive handler `h` is
pending it is invoked once with `(closed = true, p)`, the slot is emptied and
`recv_buf` is untouched; if none is pending `p` is appended to `recv_buf` and nothing
is invoked.  With a payload `p` and status `ERR_OK` on a socket that is not closed, the
pending handler `h` is invoked once with `(closed = false, p)` and the slot is
emptied. -/
theorem C13_payload_with_closure (tpcb : tcp_pcb_ptr) (w : World) (p : Bytes)
    (err cr : err_t) (h : Nat) :
    (err ≠ ERR_OK → w.internal.recv = some h →
      (recv_cb tpcb (some p) err cr w).1.internal.pcb_freed = true ∧
      (recv_cb tpcb (some p) err cr w).1.internal.recv = none ∧
      (recv_cb tpcb (some p) err cr w).1.internal.recv_buf = w.internal.recv_buf ∧
      recv_calls (recv_cb tpcb (some p) err cr w).1.log
        = recv_calls w.log ++ [(h, true, p)]) ∧
    (err ≠ ERR_OK → w.internal.recv = none →
      (recv_cb tpcb (some p) err cr w).1.internal.pcb_freed = true ∧
      (recv_cb tpcb (some p) err cr w).1.internal.recv = none ∧
      (recv_cb tpcb (some p) err cr w).1.internal.recv_buf = w.internal.recv_buf ++ p ∧
      recv_calls (recv_cb tpcb (some p) err cr w).1.log = recv_calls w.log) ∧
    (err = ERR_OK → w.internal.pcb_freed = false → w.internal.recv = some h →
      (recv_cb tpcb (some p) err cr w).1.internal.pcb_freed = false ∧
      (recv_cb tpcb (some p) err cr w).1.internal.recv = none ∧
      (recv_cb tpcb (some p) err cr w).1.internal.recv_buf = w.internal.recv_buf ∧
      recv_calls (recv_cb tpcb (some p) err cr w).1.log
        = recv_calls w.log ++ [(h, false, p)]) := by
  have hce : recv_calls (close_events tpcb cr) = [] := by
    by_cases hc : cr = ERR_OK <;> simp [close_events, recv_calls, hc]
  refine ⟨?_, ?_, ?_⟩
  · intro he hr
    rw [recv_cb_payload_pending tpcb p err cr w h hr]
    simp [call_recv, World.emit, he, recv_calls_append, hce, pbuf_to_str]
    simp [recv_calls]
  · intro he hr
    rw [recv_cb_payload_buffered tpcb p err cr w hr]
    simp [he, hr, recv_calls_append, hce, pbuf_to_str]
    simp [recv_calls]
  · intro he hf hr
    rw [recv_cb_payload_pending tpcb p err cr w h hr]
    simp [call_recv, World.emit, he, hf, recv_calls_append, pbuf_to_str]
    simp [recv_calls]

/-- C13 at a concrete input: handler 7 pending on a freshly bound socket, then the byte
65 arrives with status `ERR_ABRT`. -/
theorem C13_payload_with_closure_witness :
    ERR_ABRT ≠ ERR_OK ∧
    (run [Op.async_recv (some 7)] (set_pcb (some 1) World.init)).internal.recv = some 7 ∧
    recv_calls (recv_cb (some 1) (some [65]) ERR_ABRT ERR_OK
        (run [Op.async_recv (some 7)] (set_pcb (some 1) World.init))).1.log
      = recv_calls (run [Op.async_recv (some 7)] (set_pcb (some 1) World.init)).log
        ++ [(7, true, [65])] :=
  ⟨by decide, rfl,
   ((C13_payload_with_closure (some 1)
      (run [Op.async_recv (some 7)] (set_pcb (some 1) World.init)) [65] ERR_ABRT ERR_OK 7).1
      (by decide) rfl).2.2.2⟩

/-! ## C14: close, abort, and the return code -/

/-- C14: close, abort, and the return code of the data-arrived notification, with the
answer `cr` of `tcp_close` as an input.  The stack calls of the notification are, in
order: `tcp_close` if and only if the status is failing or the payload absent; then
`tcp_abort` if and only if that close was requested and `cr` is not `ERR_OK`; then
`tcp_recved` if there is a payload.  The return value is `ERR_ABRT` if and only if the
abort was requested, and `ERR_OK` in every other case. -/
theorem C14_close_then_abort (tpcb : tcp_pcb_ptr) (p : Option Bytes) (err cr : err_t)
    (w : World) :
    stack_calls (recv_cb tpcb p err cr w).1.log
      = stack_calls w.log
        ++ (if err ≠ ERR_OK ∨ p = none then
              StackCall.tcp_close tpcb ::
                (if cr ≠ ERR_OK then [StackCall.tcp_abort tpcb] else [])
            else [])
        ++ (match p with
            | some pb => [StackCall.tcp_recved w.internal.pcb (u16_t pb.length)]
            | none => []) ∧
    (recv_cb tpcb p err cr w).2
      = (if (err ≠ ERR_OK ∨ p = none) ∧ cr ≠ ERR_OK then ERR_ABRT else ERR_OK) ∧
    ((recv_cb tpcb p err cr w).2 = ERR_ABRT ↔ (err ≠ ERR_OK ∨ p = none) ∧ cr ≠ ERR_OK) ∧
    (¬ ((err ≠ ERR_OK ∨ p = none) ∧ cr ≠ ERR_OK) → (recv_cb tpcb p err cr w).2 = ERR_OK) := by
  have hret := recv_cb_return tpcb p err cr w
  have hne : ERR_ABRT ≠ ERR_OK := by decide
  refine ⟨?_, hret, ?_, ?_⟩
  · cases p with
    | none =>
      rw [recv_cb_no_payload]
      by_cases hc : cr = ERR_OK <;>
        simp [stack_calls_append, close_events, stack_calls, hc]
    | some pb =>
      cases hr : w.internal.recv with
      | none =>
        rw [recv_cb_payload_buffered tpcb pb err cr w hr]
        by_cases hc : cr = ERR_OK <;> by_cases he : err = ERR_OK <;>
          simp [stack_calls_append, close_events, stack_calls, hc, he]
      | some f =>
        rw [recv_cb_payload_pending tpcb pb err cr w f hr]
        by_cases hc : cr = ERR_OK <;> by_cases he : err = ERR_OK <;>
          simp [call_recv, World.emit, stack_calls_append, close_events, stack_calls, hc, he]
  · rw [hret]
    by_cases hc : (err ≠ ERR_OK ∨ p = none) ∧ cr ≠ ERR_OK
    · rw [if_pos hc]
      exact ⟨fun _ => hc, fun _ => rfl⟩
    · rw [if_neg hc]
      exact ⟨fun h => absurd h.symm hne, fun h => absurd h hc⟩
  · intro hc
    rw [hret, if_neg hc]

/-- C14 at a concrete input: a payload with status `ERR_OK` returns `ERR_OK`, whatever
`tcp_close` would have answered. -/
theorem C14_close_then_abort_witness :
    ¬ ((ERR_OK ≠ ERR_OK ∨ (some [65] : Option Bytes) = none) ∧ ERR_ABRT ≠ ERR_OK) ∧
    (recv_cb (some 1) (some [65]) ERR_OK ERR_ABRT (set_pcb (some 1) World.init)).2 = ERR_OK :=
  ⟨by decide,
   (C14_close_then_abort (some 1) (some [65]) ERR_OK ERR_ABRT
      (set_pcb (some 1) World.init)).2.2.2 (by decide)⟩

/-! ## C15: a second request replaces the pending handler -/

/-- What a notification appends to the log invokes only what is pending, and each of
the receive and send slots afterwards holds what it held or is empty. -/
theorem notification_log_shape (e : StackEvent) (w : World) :
    ∃ extra : List Event,
      (step e.toOp w).log = w.log ++ extra ∧
      (∀ c ∈ recv_calls extra, w.internal.recv = some c.1) ∧
      (∀ c ∈ sent_calls extra, w.internal.sent = some c.1) ∧
      ((step e.toOp w).internal.recv = w.internal.recv ∨
        (step e.toOp w).internal.recv = none) ∧
      ((step e.toOp w).internal.sent = w.internal.sent ∨
        (step e.toOp w).internal.sent = none) := by
  cases e with
  | data_arrived p err cr =>
    have hstep : step (StackEvent.data_arrived p err cr).toOp w
        = (recv_cb w.internal.pcb p err cr w).1 := rfl
    rw [hstep]
    cases p with
    | none =>
      rw [recv_cb_no_payload]
      refine ⟨close_events w.internal.pcb cr, rfl, ?_, ?_, Or.inl rfl, Or.inl rfl⟩
      · rw [recv_calls_close_events]; exact fun c hc => absurd hc (List.not_mem_nil c)
      · rw [sent_calls_close_events]; exact fun c hc => absurd hc (List.not_mem_nil c)
    | some pb =>
      cases hr : w.internal.recv with
      | none =>
        rw [recv_cb_payload_buffered _ pb err cr w hr]
        refine ⟨(if err ≠ ERR_OK then close_events w.internal.pcb cr else [])
            ++ [Event.stack (StackCall.tcp_recved w.internal.pcb (u16_t pb.length))],
          by simp, ?_, ?_, Or.inr hr, Or.inl rfl⟩
        · rw [recv_calls_append, recv_calls_maybe_close, List.nil_append]
          simp [recv_calls]
        · rw [sent_calls_append, sent_calls_maybe_close, List.nil_append]
          simp [sent_calls]
      | some f =>
        rw [recv_cb_payload_pending _ pb err cr w f hr]
        refine ⟨(if err ≠ ERR_OK then close_events w.internal.pcb cr else [])
            ++ [Event.stack (StackCall.tcp_recved w.internal.pcb (u16_t pb.length)),
                Event.recv_handler f (w.internal.pcb_freed || decide (err ≠ ERR_OK))
                  (pbuf_to_str pb)],
          by simp [call_recv, World.emit], ?_, ?_, Or.inr rfl, Or.inl rfl⟩
        · rw [recv_calls_append, recv_calls_maybe_close, List.nil_append]
          simp [recv_calls]
        · rw [sent_calls_append, sent_calls_maybe_close, List.nil_append]
          simp [sent_calls]
  | bytes_acked len =>
    have hstep : step (StackEvent.bytes_acked len).toOp w = (sent_cb len w).1 := rfl
    rw [hstep]
    by_cases hz : (w.internal.pending_len + UINT_MOD - u16_t len) % UINT_MOD = 0
    · rw [sent_cb_fires len w hz]
      cases hs : w.internal.sent with
      | none =>
        exact ⟨[Event.bad_function_call], rfl, by simp [recv_calls], by simp [sent_calls],
          Or.inl rfl, Or.inr rfl⟩
      | some f =>
        exact ⟨[Event.sent_handler f w.internal.pcb_freed], rfl, by simp [recv_calls],
          by simp [sent_calls], Or.inl rfl, Or.inr rfl⟩
    · rw [sent_cb_waits len w hz]
      exact ⟨[], by simp, by simp [recv_calls], by simp [sent_calls], Or.inl rfl, Or.inl rfl⟩
  | error err =>
    have hstep : step (StackEvent.error err).toOp w = err_cb err w := rfl
    rw [hstep]
    cases he : w.internal.err with
    | none =>
      rw [err_cb_queued err w he]
      exact ⟨[], by simp, by simp [recv_calls], by simp [sent_calls], Or.inl rfl, Or.inl rfl⟩
    | some f =>
      rw [err_cb_pending err w f he]
      exact ⟨[Event.err_handler f err], rfl, by simp [recv_calls], by simp [sent_calls],
        Or.inl rfl, Or.inl rfl⟩

/-- Notifications invoke only what is pending when they start: every receive or send
handler invocation in the log after a sequence of notifications was there before or is
of the handler that was pending before. -/
theorem notifications_invoke_pending (es : List StackEvent) (w : World) :
    (∀ c ∈ recv_calls (run (es.map StackEvent.toOp) w).log,
      c ∈ recv_calls w.log ∨ w.internal.recv = some c.1) ∧
    (∀ c ∈ sent_calls (run (es.map StackEvent.toOp) w).log,
      c ∈ sent_calls w.log ∨ w.internal.sent = some c.1) := by
  induction es generalizing w with
  | nil => exact ⟨fun c hc => Or.inl hc, fun c hc => Or.inl hc⟩
  | cons e es ih =>
    obtain ⟨extra, hlog, hrc, hsc, s1, s2⟩ := notification_log_shape e w
    obtain ⟨i1, i2⟩ := ih (step e.toOp w)
    rw [List.map_cons, run_cons]
    refine ⟨?_, ?_⟩
    · intro c hc
      rcases i1 c hc with h | h
      · rw [hlog, recv_calls_append, List.mem_append] at h
        rcases h with h | h
        · exact Or.inl h
        · exact Or.inr (hrc c h)
      · rcases s1 with s | s
        · exact Or.inr (s ▸ h)
        · rw [s] at h; exact Option.noConfusion h
    · intro c hc
      rcases i2 c hc with h | h
      · rw [hlog, sent_calls_append, List.mem_append] at h
        rcases h with h | h
        · exact Or.inl h
        · exact Or.inr (hsc c h)
      · rcases s2 with s | s
        · exact Or.inr (s ▸ h)
        · rw [s] at h; exact Option.noConfusion h

/-- State of a socket that is not closed, has `T` bytes pending (`T` fitting
`unsigned`) and send handler `h` pending, after the first `j` of acknowledgments that
add up to `T`: the pending count, the closed flag, the send-handler slot and the
send-handler invocations. -/
theorem acks_invariant (w : World) (T h : Nat) (acks : List Nat)
    (hfree : w.internal.pcb_freed = false) (hpl : w.internal.pending_len = T)
    (hs : w.internal.sent = some h)
    (hT : T < UINT_MOD) (hu16 : ∀ a ∈ acks, a < U16_MOD)
    (hsum : acks.sum = T) (j : Nat) (hj : j ≤ acks.length) :
    (run ((acks.take j).map Op.bytes_acked) w).internal.pending_len
        = T - (acks.take j).sum ∧
    (run ((acks.take j).map Op.bytes_acked) w).internal.pcb_freed = false ∧
    (run ((acks.take j).map Op.bytes_acked) w).internal.sent
        = (if 1 ≤ j ∧ (acks.take j).sum = T then none else some h) ∧
    sent_calls (run ((acks.take j).map Op.bytes_acked) w).log
        = sent_calls w.log ++ (if 1 ≤ j ∧ (acks.take j).sum = T then [(h, false)] else []) := by
  induction j with
  | zero =>
    refine ⟨?_, ?_, ?_, ?_⟩
    · show w.internal.pending_len = T - 0
      rw [hpl]; rfl
    · exact hfree
    · show w.internal.sent = _
      rw [hs, if_neg (by omega)]
    · show sent_calls w.log = _
      rw [if_neg (by omega), List.append_nil]
  | succ j ih =>
    have hjlt : j < acks.length := hj
    obtain ⟨ih1, ih2, ih3, ih4⟩ := ih (Nat.le_of_lt hjlt)
    have htake : acks.take (j + 1) = acks.take j ++ [acks[j]] := by
      rw [List.take_succ, List.getElem?_eq_getElem hjlt]; rfl
    have hle := sum_take_le acks (j + 1)
    rw [htake, List.sum_append, List.sum_singleton, hsum] at hle
    have ha : acks[j] < U16_MOD := hu16 _ (List.getElem_mem hjlt)
    rw [htake, List.map_append, run_append, List.sum_append, List.sum_singleton]
    generalize run ((acks.take j).map Op.bytes_acked) w = wj at *
    obtain ⟨s1, s2, s3, s4⟩ := sent_cb_step wj acks[j] (T - (acks.take j).sum) ih1
      (by omega) ha (by omega)
    rw [List.map_cons, List.map_nil, run_cons, run_nil, step_bytes_acked]
    refine ⟨by rw [s1]; omega, by rw [s2, ih2], ?_, ?_⟩
    · rw [s3, ih3]
      by_cases hfired : 1 ≤ j ∧ (acks.take j).sum = T
      · have : acks[j] = 0 := by omega
        simp [hfired, this]
      · by_cases hz : T - (acks.take j).sum - acks[j] = 0
        · have : (acks.take j).sum + acks[j] = T := by omega
          simp [hz, this]
        · have : ¬ ((acks.take j).sum + acks[j] = T) := by omega
          simp [hfired, hz, this]
    · rw [s4, ih4, ih3, ih2]
      by_cases hfired : 1 ≤ j ∧ (acks.take j).sum = T
      · have : acks[j] = 0 := by omega
        simp [hfired, this]
      · by_cases hz : T - (acks.take j).sum - acks[j] = 0
        · have : (acks.take j).sum + acks[j] = T := by omega
          simp [hfired, hz, this]
        · have : ¬ ((acks.take j).sum + acks[j] = T) := by omega
          simp [hfired, hz, this]

/-- C15 (amended): a second request replaces the pending handler, for payloads whose
lengths `N1`, `N2` add up to less than `2 ^ 32`.  On a socket that is not closed, with
`pending_len = 0`, `async_send(p1, h1)` followed at once by `async_send(p2, h2)`
invokes nothing and leaves `h2` as the pending send handler and
`pending_len = N1 + N2`.  Whatever acknowledgments follow, every send-handler
invocation they add is of `h2`; when they are of `u16_t` sizes adding up to
`N1 + N2`, the invocations added by the first `j` of them are `h2(closed = false)`
once if `j >= 1` and the cumulative sum has reached `N1 + N2`, and none otherwise.
Likewise, with `recv_buf` empty, `async_recv(g1)` followed by `async_recv(g2)` logs
nothing and leaves `g2` pending, and whatever notifications follow, every
receive-handler invocation they add is of `g2`. -/
theorem C15_silent_overwrite (w : World) (p1 p2 : Bytes) (h1 h2 g1 g2 : Nat)
    (acks : List Nat) (es : List StackEvent)
    (hfree : w.internal.pcb_freed = false) (hpl : w.internal.pending_len = 0)
    (hN : p1.length + p2.length < UINT_MOD) :
    (async_send p2 (some h2) (async_send p1 (some h1) w)).internal.sent = some h2 ∧
    (async_send p2 (some h2) (async_send p1 (some h1) w)).internal.pending_len
      = p1.length + p2.length ∧
    sent_calls (async_send p2 (some h2) (async_send p1 (some h1) w)).log = sent_calls w.log ∧
    (∀ c ∈ sent_calls (run (acks.map Op.bytes_acked)
        (async_send p2 (some h2) (async_send p1 (some h1) w))).log,
      c ∈ sent_calls w.log ∨ c.1 = h2) ∧
    ((∀ a ∈ acks, a < U16_MOD) → acks.sum = p1.length + p2.length →
      ∀ j, j ≤ acks.length →
        sent_calls (run ((acks.take j).map Op.bytes_acked)
            (async_send p2 (some h2) (async_send p1 (some h1) w))).log
          = sent_calls w.log ++
            (if 1 ≤ j ∧ (acks.take j).sum = p1.length + p2.length then [(h2, false)]
             else [])) ∧
    (w.internal.recv_buf = [] →
      (async_recv (some g2) (async_recv (some g1) w)).internal.recv = some g2 ∧
      (async_recv (some g2) (async_recv (some g1) w)).log = w.log ∧
      ∀ c ∈ recv_calls (run (es.map StackEvent.toOp)
          (async_recv (some g2) (async_recv (some g1) w))).log,
        c ∈ recv_calls w.log ∨ c.1 = g2) := by
  obtain ⟨t1, t2, t3, t4⟩ := async_send_twice w p1 p2 (some h1) (some h2) hfree
  have hT : (async_send p2 (some h2) (async_send p1 (some h1) w)).internal.pending_len
      = p1.length + p2.length := by
    have hlt1 : p1.length < UINT_MOD := by omega
    rw [t3, hpl, Nat.zero_add, Nat.mod_eq_of_lt hlt1, Nat.mod_eq_of_lt hN]
  refine ⟨t2, hT, t4, ?_, ?_, ?_⟩
  · intro c hc
    have hmap : acks.map Op.bytes_acked
        = (acks.map StackEvent.bytes_acked).map StackEvent.toOp := by
      rw [List.map_map]; rfl
    rw [hmap] at hc
    rcases (notifications_invoke_pending _ _).2 c hc with h | h
    · rw [t4] at h; exact Or.inl h
    · rw [t2] at h; exact Or.inr (Option.some.inj h).symm
  · intro hu16 hsum j hj
    have := (acks_invariant _ (p1.length + p2.length) h2 acks t1 hT t2 hN hu16 hsum j hj).2.2.2
    rw [this, t4]
  · intro hb
    have v1 := async_recv_stored w (some g1) hfree hb
    have hf1 : (async_recv (some g1) w).internal.pcb_freed = false := by rw [v1]; exact hfree
    have hb1 : (async_recv (some g1) w).internal.recv_buf = [] := by rw [v1]; exact hb
    have v2 := async_recv_stored (async_recv (some g1) w) (some g2) hf1 hb1
    refine ⟨by rw [v2], by rw [v2, v1], ?_⟩
    intro c hc
    rcases (notifications_invoke_pending es _).1 c hc with h | h
    · rw [v2, v1] at h; exact Or.inl h
    · rw [v2] at h; exact Or.inr (Option.some.inj h).symm

/-- C15 at a concrete input: one byte then two bytes sent on a freshly bound socket,
handlers 7 then 8. -/
theorem C15_silent_overwrite_witness :
    (set_pcb (some 1) World.init).internal.pcb_freed = false ∧
    (set_pcb (some 1) World.init).internal.pending_len = 0 ∧
    ([65] : Bytes).length + ([66, 67] : Bytes).length < UINT_MOD ∧
    (async_send [66, 67] (some 8)
      (async_send [65] (some 7) (set_pcb (some 1) World.init))).internal.sent = some 8 ∧
    (async_send [66, 67] (some 8)
      (async_send [65] (some 7) (set_pcb (some 1) World.init))).internal.pending_len
      = ([65] : Bytes).length + ([66, 67] : Bytes).length :=
  ⟨rfl, rfl, by decide,
   (C15_silent_overwrite (set_pcb (some 1) World.init) [65] [66, 67] 7 8 5 6 [1, 2] []
      rfl rfl (by decide)).1,
   (C15_silent_overwrite (set_pcb (some 1) World.init) [65] [66, 67] 7 8 5 6 [1, 2] []
      rfl rfl (by decide)).2.1⟩

/-- C15 as stated fails for `N1 = 2 ^ 32 + 5`, `N2 = 0`: on a freshly bound socket the
two sends leave `pending_len = 5`, not `N1 + N2`, and the first acknowledgment of
`huge_acks`, of 5 bytes, invokes handler 8 although the acknowledgments (which add up
to `N1 + N2`) have by then only reached 5. -/
theorem C15_counterexample :
    (set_pcb (some 1) World.init).internal.pcb_freed = false ∧
    (set_pcb (some 1) World.init).internal.pending_len = 0 ∧
    1 ≤ huge_packet.length ∧
    (∀ a ∈ huge_acks, a < U16_MOD) ∧
    huge_acks.sum = huge_packet.length + ([] : Bytes).length ∧
    (async_send [] (some 8)
      (async_send huge_packet (some 7) (set_pcb (some 1) World.init))).internal.pending_len
      = 5 ∧
    huge_packet.length + ([] : Bytes).length ≠ 5 ∧
    (huge_acks.take 1).sum ≠ huge_packet.length + ([] : Bytes).length ∧
    sent_calls (run ((huge_acks.take 1).map Op.bytes_acked)
      (async_send [] (some 8)
        (async_send huge_packet (some 7) (set_pcb (some 1) World.init)))).log
      = [(8, false)] := by
  obtain ⟨t1, t2, t3, t4⟩ := async_send_twice (set_pcb (some 1) World.init) huge_packet []
    (some 7) (some 8) rfl
  have h0 : (set_pcb (some 1) World.init).internal.pending_len = 0 := rfl
  have hlen : ((0 + huge_packet.length) % UINT_MOD + ([] : Bytes).length) % UINT_MOD = 5 := by
    rw [huge_packet_length]; decide
  have hpl : (async_send [] (some 8) (async_send huge_packet (some 7)
      (set_pcb (some 1) World.init))).internal.pending_len = 5 := by
    rw [t3, h0, hlen]
  have hcalls : sent_calls (set_pcb (some 1) World.init).log = [] := rfl
  refine ⟨rfl, rfl, ?_, huge_acks_u16, ?_, hpl, ?_, ?_, ?_⟩
  · rw [huge_packet_length]; decide
  · rw [huge_acks_sum, huge_packet_length]; rfl
  · rw [huge_packet_length]; decide
  · rw [huge_acks_take, huge_packet_length]; decide
  · rw [huge_acks_take, List.map_cons, List.map_nil, run_cons, run_nil, step_bytes_acked]
    obtain ⟨_, _, _, s4⟩ := sent_cb_step _ 5 5 hpl (by decide) (by decide) (Nat.le_refl 5)
    rw [s4, t4, t2, t1, hcalls]
    rfl

/-! ## C16: teardown -/

/-- C16: teardown.  With a connection object bound and `pcb_freed = false`, the
destructor issues exactly `tcp_recv`, `tcp_sent`, `tcp_err` with `NULL`, then
`tcp_close`, then `tcp_abort` if and only if `tcp_close` did not answer `ERR_OK`, in
this order, and sets `pcb` to `NULL`.  With no connection object bound, or with
`pcb_freed = true`, it does nothing at all.  In no case is a handler invoked. -/
theorem C16_teardown (cr : err_t) (w : World) :
    (w.internal.pcb ≠ none → w.internal.pcb_freed = false →
      destroy cr w =
        { w with
          internal := { w.internal with pcb := none },
          recv_fn := false, sent_fn := false, err_fn := false,
          log := w.log ++
            [Event.stack (StackCall.tcp_recv w.internal.pcb false),
             Event.stack (StackCall.tcp_sent w.internal.pcb false),
             Event.stack (StackCall.tcp_err w.internal.pcb false),
             Event.stack (StackCall.tcp_close w.internal.pcb)]
            ++ (if ERR_OK ≠ cr then [Event.stack (StackCall.tcp_abort w.internal.pcb)]
                else []) }) ∧
    (w.internal.pcb = none ∨ w.internal.pcb_freed = true → destroy cr w = w) ∧
    handler_events (destroy cr w).log = handler_events w.log := by
  have h2 : w.internal.pcb = none ∨ w.internal.pcb_freed = true → destroy cr w = w := by
    intro h
    rcases h with h | h <;> simp [destroy, h]
  refine ⟨?_, h2, ?_⟩
  · intro hp hf
    by_cases hc : ERR_OK = cr <;>
      simp [destroy, hp, hf, hc, tcp_recv, tcp_sent, tcp_err, tcp_close, tcp_abort, World.emit]
  · by_cases hp : w.internal.pcb = none
    · rw [h2 (Or.inl hp)]
    · cases hf : w.internal.pcb_freed with
      | true => rw [h2 (Or.inr hf)]
      | false =>
        by_cases hc : ERR_OK = cr <;>
          simp [destroy, hp, hf, hc, tcp_recv, tcp_sent, tcp_err, tcp_close, tcp_abort,
            World.emit, handler_events]

/-- C16 at a concrete input: destruction after an error notification does nothing. -/
theorem C16_teardown_witness :
    ((run [Op.error (-14)] (set_pcb (some 1) World.init)).internal.pcb = none ∨
      (run [Op.error (-14)] (set_pcb (some 1) World.init)).internal.pcb_freed = true) ∧
    destroy ERR_OK (run [Op.error (-14)] (set_pcb (some 1) World.init))
      = run [Op.error (-14)] (set_pcb (some 1) World.init) :=
  ⟨Or.inr rfl,
   (C16_teardown ERR_OK (run [Op.error (-14)] (set_pcb (some 1) World.init))).2.1
      (Or.inr rfl)⟩

/-! ## C17: the state is updated before a handler runs -/

/-- With handler bodies that leave the state as it is, running the body of a receive
handler is the plain invocation. -/
theorem invoke_recv_idle (handler : RecvHandler) (closed : Bool) (packet : Bytes) (w : World) :
    invoke_recv HandlerFns.idle handler closed packet w = call_recv handler closed packet w := by
  cases handler <;> rfl

/-- With handler bodies that leave the state as it is, running the body of a send
handler is the plain invocation. -/
theorem invoke_sent_idle (handler : SentHandler) (closed : Bool) (w : World) :
    invoke_sent HandlerFns.idle handler closed w = call_sent handler closed w := by
  cases handler <;> rfl

/-- With handler bodies that leave the state as it is, running the body of an error
handler is the plain invocation. -/
theorem invoke_err_idle (handler : ErrHandler) (err : err_t) (w : World) :
    invoke_err HandlerFns.idle handler err w = call_err handler err w := by
  cases handler <;> rfl

/-- With handler bodies that leave the state as it is, the operations that run the
bodies are the operations that only log the invocations. -/
theorem obs_idle (w : World) :
    (∀ tpcb p err cr, recv_cb_obs HandlerFns.idle tpcb p err cr w = recv_cb tpcb p err cr w) ∧
    (∀ len, sent_cb_obs HandlerFns.idle len w = sent_cb len w) ∧
    (∀ err, err_cb_obs HandlerFns.idle err w = err_cb err w) ∧
    (∀ handler, async_recv_obs HandlerFns.idle handler w = async_recv handler w) ∧
    (∀ packet handler,
      async_send_obs HandlerFns.idle packet handler w = async_send packet handler w) ∧
    (∀ handler, async_err_obs HandlerFns.idle handler w = async_err handler w) := by
  refine ⟨?_, ?_, ?_, ?_, ?_, ?_⟩
  · intro tpcb p err cr
    cases p with
    | none =>
      by_cases hc : cr = ERR_OK <;> simp [recv_cb_obs, recv_cb, hc]
    | some pb =>
      by_cases hc : cr = ERR_OK <;> by_cases he : err = ERR_OK <;>
        cases hr : w.internal.recv <;>
        simp [recv_cb_obs, recv_cb, hc, he, hr, invoke_recv_idle, tcp_close, tcp_abort,
          tcp_recved, World.emit]
  · intro len
    by_cases hz : (w.internal.pending_len + UINT_MOD - u16_t len) % UINT_MOD = 0 <;>
      simp [sent_cb_obs, sent_cb, hz, invoke_sent_idle]
  · intro err
    cases he : w.internal.err <;> simp [err_cb_obs, err_cb, he, invoke_err_idle]
  · intro handler
    cases hf : w.internal.pcb_freed <;>
      by_cases hb : w.internal.recv_buf.length = 0 <;>
      simp [async_recv_obs, async_recv, hf, hb, invoke_recv_idle]
  · intro packet handler
    cases hf : w.internal.pcb_freed <;>
      simp [async_send_obs, async_send, hf, invoke_sent_idle]
  · intro handler
    cases hq : w.internal.err_que <;> simp [async_err_obs, async_err, hq, invoke_err_idle]

/-- C17: the state is updated before a handler runs.  Handlers are functions `H` on
the state: the body of a handler reads, and may change, the state it is invoked in.
For all handler bodies, in each of the seven places where the core invokes a handler,
the result of the operation is what the body returns when run in a state that already
has the update applied, so the body observes the update and the core writes nothing
after the body returns.  The data-arrived notification has emptied the receive-handler
slot (and set the closed flag if the status is failing); the bytes-acknowledged
notification has set `pending_len` to 0 and emptied the send-handler slot; the error
notification has set the closed flag and emptied the error-handler slot; `async_recv`
with buffered bytes has emptied `recv_buf`; `async_err` with a queued code has popped
it from `err_que`; `async_recv` and `async_send` on a closed socket invoke their
handler in the state as it is. -/
theorem C17_state_updated_before_handler (H : HandlerFns) (w : World) :
    (∀ (tpcb : tcp_pcb_ptr) (pb : Bytes) (err cr : err_t) (f : Nat),
      w.internal.recv = some f →
      (recv_cb_obs H tpcb (some pb) err cr w).1
        = H.recv f (w.internal.pcb_freed || decide (err ≠ ERR_OK)) (pbuf_to_str pb)
            { w with
              internal := { w.internal with
                pcb_freed := w.internal.pcb_freed || decide (err ≠ ERR_OK), recv := none },
              log := w.log ++ (if err ≠ ERR_OK then close_events tpcb cr else [])
                ++ [Event.stack (StackCall.tcp_recved w.internal.pcb (u16_t pb.length)),
                    Event.recv_handler f (w.internal.pcb_freed || decide (err ≠ ERR_OK))
                      (pbuf_to_str pb)] }) ∧
    (∀ (len f : Nat), (w.internal.pending_len + UINT_MOD - u16_t len) % UINT_MOD = 0 →
      w.internal.sent = some f →
      (sent_cb_obs H len w).1
        = H.sent f w.internal.pcb_freed
            { w with
              internal := { w.internal with pending_len := 0, sent := none },
              log := w.log ++ [Event.sent_handler f w.internal.pcb_freed] }) ∧
    (∀ (e : err_t) (f : Nat), w.internal.err = some f →
      err_cb_obs H e w
        = H.err f e
            { w with
              internal := { w.internal with pcb_freed := true, err := none },
              log := w.log ++ [Event.err_handler f e] }) ∧
    (∀ (h : Nat), w.internal.pcb_freed = false → w.internal.recv_buf ≠ [] →
      async_recv_obs H (some h) w
        = H.recv h false w.internal.recv_buf
            { w with
              internal := { w.internal with recv_buf := [] },
              log := w.log ++ [Event.recv_handler h false w.internal.recv_buf] }) ∧
    (∀ (h : Nat) (e : err_t) (rest : List err_t), w.internal.err_que = e :: rest →
      async_err_obs H (some h) w
        = H.err h e
            { w with
              internal := { w.internal with err_que := rest },
              log := w.log ++ [Event.err_handler h e] }) ∧
    (∀ (h : Nat), w.internal.pcb_freed = true →
      async_recv_obs H (some h) w
        = H.recv h true [] { w with log := w.log ++ [Event.recv_handler h true []] }) ∧
    (∀ (packet : Bytes) (h : Nat), w.internal.pcb_freed = true →
      async_send_obs H packet (some h) w
        = H.sent h true { w with log := w.log ++ [Event.sent_handler h true] }) := by
  refine ⟨?_, ?_, ?_, ?_, ?_, ?_, ?_⟩
  · intro tpcb pb err cr f hr
    by_cases hc : cr = ERR_OK <;> by_cases he : err = ERR_OK <;>
      simp [recv_cb_obs, hc, he, hr, close_events, tcp_close, tcp_abort, tcp_recved,
        invoke_recv, World.emit, pbuf_to_str]
  · intro len f hz hs
    simp [sent_cb_obs, hz, hs, invoke_sent, World.emit]
  · intro e f he
    simp [err_cb_obs, he, invoke_err, World.emit]
  · intro h hf hb
    have hlen : ¬ (w.internal.recv_buf.length = 0) := fun h0 =>
      hb (List.length_eq_zero.mp h0)
    simp only [async_recv_obs, hf, hlen, invoke_recv, World.emit]
    simp
  · intro h e rest hq
    simp [async_err_obs, hq, invoke_err, World.emit]
  · intro h hf
    simp [async_recv_obs, hf, invoke_recv, World.emit]
  · intro packet h hf
    simp [async_send_obs, hf, invoke_sent, World.emit]

/-- C17 at a concrete input: two bytes are sent with handler 7 on a freshly bound
socket and then acknowledged, with handler bodies that call `async_send` with the
count of pending bytes they observe.  The body of handler 7 observes
`pending_len = 0` (it sends the byte 0), and its own request is still in place when
the callback returns: handler 8 is pending and one byte is counted. -/
theorem C17_state_updated_before_handler_witness :
    ((run [Op.async_send [72, 73] (some 7)] (set_pcb (some 1) World.init)).internal.pending_len
      + UINT_MOD - u16_t 2) % UINT_MOD = 0 ∧
    (run [Op.async_send [72, 73] (some 7)] (set_pcb (some 1) World.init)).internal.sent
      = some 7 ∧
    (sent_cb_obs HandlerFns.resend 2
        (run [Op.async_send [72, 73] (some 7)] (set_pcb (some 1) World.init))).1
      = HandlerFns.resend.sent 7
          (run [Op.async_send [72, 73] (some 7)] (set_pcb (some 1) World.init)).internal.pcb_freed
          { run [Op.async_send [72, 73] (some 7)] (set_pcb (some 1) World.init) with
            internal := { (run [Op.async_send [72, 73] (some 7)]
              (set_pcb (some 1) World.init)).internal with pending_len := 0, sent := none },
            log := (run [Op.async_send [72, 73] (some 7)] (set_pcb (some 1) World.init)).log
              ++ [Event.sent_handler 7 (run [Op.async_send [72, 73] (some 7)]
                    (set_pcb (some 1) World.init)).internal.pcb_freed] } ∧
    (sent_cb_obs HandlerFns.resend 2
        (run [Op.async_send [72, 73] (some 7)]
          (set_pcb (some 1) World.init))).1.internal.sent = some 8 ∧
    (sent_cb_obs HandlerFns.resend 2
        (run [Op.async_send [72, 73] (some 7)]
          (set_pcb (some 1) World.init))).1.internal.pending_len = 1 ∧
    stack_calls ((sent_cb_obs HandlerFns.resend 2
        (run [Op.async_send [72, 73] (some 7)] (set_pcb (some 1) World.init))).1.log.drop
          (run [Op.async_send [72, 73] (some 7)] (set_pcb (some 1) World.init)).log.length)
      = [StackCall.tcp_write (some 1) [0] 1, StackCall.tcp_output (some 1)] :=
  ⟨by decide, by decide,
   (C17_state_updated_before_handler HandlerFns.resend
      (run [Op.async_send [72, 73] (some 7)] (set_pcb (some 1) World.init))).2.1 2 7
      (by decide) (by decide),
   by decide, by decide, by decide⟩

/-- The order is observable: in the state of the concrete input above (two bytes sent
with handler 7 on a freshly bound socket, then acknowledged), running the body of
handler 7 first and writing `pending_len` and the send-handler slot afterwards would
give another state than the callback does. -/
theorem sent_cb_obs_not_handler_first :
    (sent_cb_obs HandlerFns.resend 2
        (run [Op.async_send [72, 73] (some 7)] (set_pcb (some 1) World.init))).1
      ≠ { HandlerFns.resend.sent 7 false
            ((run [Op.async_send [72, 73] (some 7)] (set_pcb (some 1) World.init)).emit
              (Event.sent_handler 7 false)) with
          internal := { (HandlerFns.resend.sent 7 false
              ((run [Op.async_send [72, 73] (some 7)] (set_pcb (some 1) World.init)).emit
                (Event.sent_handler 7 false))).internal with
            pending_len := 0, sent := none } } := by
  decide

/-! ## C18: buffering and pending handlers exclude each other -/

/-- Every operation and notification keeps buffering and pending handlers exclusive. -/
theorem step_keeps_exclusive (o : Op) (w : World) (hinv : buffers_exclusive w.internal) :
    buffers_exclusive (step o w).internal := by
  obtain ⟨hr, he⟩ := hinv
  cases o with
  | set_pcb pcb => exact ⟨hr, he⟩
  | async_recv handler =>
    rw [step_async_recv]
    cases hf : w.internal.pcb_freed with
    | true =>
      have : (async_recv handler w).internal = w.internal := by
        cases handler <;> simp [async_recv, hf, call_recv, World.emit]
      rw [this]; exact ⟨hr, he⟩
    | false =>
      by_cases hb : w.internal.recv_buf = []
      · rw [async_recv_stored w handler hf hb]
        exact ⟨fun _ => hb, he⟩
      · have : (async_recv handler w).internal = { w.internal with recv_buf := [] } := by
          have hlen : ¬ (w.internal.recv_buf.length = 0) := fun h0 =>
            hb (List.length_eq_zero.mp h0)
          cases handler <;> simp [async_recv, hf, hlen, call_recv, World.emit]
        rw [this]; exact ⟨fun _ => rfl, he⟩
  | async_send packet handler =>
    have : (async_send packet handler w).internal.recv = w.internal.recv ∧
        (async_send packet handler w).internal.recv_buf = w.internal.recv_buf ∧
        (async_send packet handler w).internal.err = w.internal.err ∧
        (async_send packet handler w).internal.err_que = w.internal.err_que := by
      cases hf : w.internal.pcb_freed <;> cases handler <;>
        simp [async_send, hf, call_sent, tcp_write, tcp_output, World.emit]
    rw [step_async_send]
    unfold buffers_exclusive
    rw [this.1, this.2.1, this.2.2.1, this.2.2.2]
    exact ⟨hr, he⟩
  | async_err handler =>
    rw [step_async_err]
    cases hq : w.internal.err_que with
    | nil =>
      rw [async_err_empty w handler hq]
      exact ⟨hr, fun _ => hq⟩
    | cons e rest =>
      have hnone : w.internal.err = none := by
        by_contra hne
        have := he hne
        rw [hq] at this
        exact List.cons_ne_nil _ _ this
      have : (async_err handler w).internal = { w.internal with err_que := rest } := by
        cases handler <;> simp [async_err, hq, call_err, World.emit]
      rw [this]
      exact ⟨hr, fun h => absurd hnone h⟩
  | cancel =>
    have : (cancel w).internal
        = { w.internal with recv := none, sent := none, err := none } := by
      by_cases hp : w.internal.pcb = none <;> simp [cancel, hp, tcp_recv, tcp_sent, tcp_err]
    show buffers_exclusive (cancel w).internal
    rw [this]
    exact ⟨fun h => absurd rfl h, fun h => absurd rfl h⟩
  | data_arrived p err cr =>
    rw [step_data_arrived]
    cases p with
    | none =>
      rw [recv_cb_no_payload]
      exact ⟨hr, he⟩
    | some pb =>
      cases hrecv : w.internal.recv with
      | none =>
        rw [recv_cb_payload_buffered _ pb err cr w hrecv]
        exact ⟨fun h => absurd hrecv h, he⟩
      | some f =>
        rw [recv_cb_payload_pending _ pb err cr w f hrecv, call_recv_internal]
        exact ⟨fun h => absurd rfl h, he⟩
  | bytes_acked len =>
    rw [step_bytes_acked]
    by_cases hz : (w.internal.pending_len + UINT_MOD - u16_t len) % UINT_MOD = 0
    · rw [sent_cb_fires len w hz, call_sent_internal]
      exact ⟨hr, he⟩
    · rw [sent_cb_waits len w hz]
      exact ⟨hr, he⟩
  | error e =>
    rw [step_error]
    cases herr : w.internal.err with
    | none =>
      rw [err_cb_queued e w herr]
      exact ⟨hr, fun h => absurd herr h⟩
    | some f =>
      rw [err_cb_pending e w f herr, call_err_internal]
      exact ⟨hr, fun h => absurd rfl h⟩

/-- Execution with re-entering handlers keeps buffering and pending handlers
exclusive, whatever the handler bodies and however many steps are taken. -/
theorem exec_keeps_exclusive (B : HandlerBodies) (n : Nat) (ops : List Op) (w : World)
    (hinv : buffers_exclusive w.internal) :
    buffers_exclusive (exec B n ops w).internal := by
  induction n generalizing ops w with
  | zero => exact hinv
  | succ n ih =>
    cases ops with
    | nil => exact hinv
    | cons o os => exact ih _ _ (step_keeps_exclusive o w hinv)

/-- With handlers that do not touch the socket, execution is the plain run. -/
theorem exec_idle (ops : List Op) (w : World) :
    exec HandlerBodies.idle ops.length ops w = run ops w := by
  induction ops generalizing w with
  | nil => rfl
  | cons o os ih =>
    have hb : ((new_events w (step o w)).map (HandlerBodies.idle.body (step o w))).flatten
        = [] := by
      induction new_events w (step o w) with
      | nil => rfl
      | cons e es ihe =>
        rw [List.map_cons, List.flatten_cons, ihe]
        cases e <;> rfl
    show exec HandlerBodies.idle os.length (_ ++ os) (step o w) = run (o :: os) w
    rw [hb, List.nil_append, ih, run_cons]

/-- An execution in which a handler re-enters the socket: handler 7 is pending when
the byte 65 arrives; its body registers handler 8, which the next arrival invokes. -/
theorem exec_reentry_example :
    recv_calls (exec HandlerBodies.rearm 10
      [Op.set_pcb (some 1), Op.async_recv (some 7),
       Op.data_arrived (some [65]) ERR_OK ERR_OK,
       Op.data_arrived (some [66]) ERR_OK ERR_OK] World.init).log
      = [(7, false, [65]), (8, false, [66])] ∧
    (exec HandlerBodies.rearm 10
      [Op.set_pcb (some 1), Op.async_recv (some 7),
       Op.data_arrived (some [65]) ERR_OK ERR_OK,
       Op.data_arrived (some [66]) ERR_OK ERR_OK] World.init).internal.recv = some 9 := by
  decide

/-- C18: buffering and pending handlers exclude each other.  In every state reached
from a freshly constructed socket by any sequence of `set_pcb`, `async_recv`,
`async_send`, `async_err`, `cancel` and the three notifications, with handlers whose
bodies re-enter the socket in any way (after any number of steps of `exec`, so also
in the middle of a handler body) or with handlers that do not (`run`), a pending
receive handler implies that `recv_buf` is empty and a pending error handler implies
that `err_que` is empty. -/
theorem C18_buffers_exclusive (B : HandlerBodies) (n : Nat) (ops : List Op) :
    buffers_exclusive (exec B n ops World.init).internal ∧
    buffers_exclusive (run ops World.init).internal :=
  ⟨exec_keeps_exclusive B n ops World.init ⟨fun _ => rfl, fun _ => rfl⟩,
   by
    rw [← exec_idle]
    exact exec_keeps_exclusive _ _ ops World.init ⟨fun _ => rfl, fun _ => rfl⟩⟩

/-! ## C19: the empty send-handler slot -/

/-- C19 at its failing inputs.  On a freshly bound socket a bytes-acknowledged
notification of length 0 finds `pending_len = 0` and invokes the empty send-handler
slot (`std::bad_function_call`).  Likewise after `async_send` of one byte with handler
7 and the acknowledgment of that byte, which invokes handler 7 and empties the slot,
a further notification of length 0 invokes the empty slot. -/
theorem C19_empty_handler_called :
    (run [Op.bytes_acked 0] (set_pcb (some 1) World.init)).log
      = (set_pcb (some 1) World.init).log ++ [Event.bad_function_call] ∧
    (run [Op.async_send [65] (some 7), Op.bytes_acked 1]
      (set_pcb (some 1) World.init)).internal.sent = none ∧
    handler_events (run [Op.async_send [65] (some 7), Op.bytes_acked 1, Op.bytes_acked 0]
      (set_pcb (some 1) World.init)).log
      = [Event.sent_handler 7 false, Event.bad_function_call] := by
  decide

/-! ## C20: bytes counted and bytes submitted -/

/-- C20 at its failing input: `async_send` of a payload of `2 ^ 16 + 1` bytes on a
freshly bound socket gives `tcp_write` the length 1 and raises `pending_len` by 65537;
after the acknowledgment of the 1 byte submitted `pending_len` is 65536, not the 0 it
was before, and no handler has been invoked. -/
theorem C20_counted_and_submitted_differ :
    (set_pcb (some 1) World.init).internal.pending_len = 0 ∧
    big_packet.length = 65537 ∧
    (async_send big_packet (some 7) (set_pcb (some 1) World.init)).log
      = (set_pcb (some 1) World.init).log
        ++ [Event.stack (StackCall.tcp_write (some 1) big_packet 1),
            Event.stack (StackCall.tcp_output (some 1))] ∧
    (async_send big_packet (some 7) (set_pcb (some 1) World.init)).internal.pending_len
      = 65537 ∧
    (sent_cb 1 (async_send big_packet (some 7)
      (set_pcb (some 1) World.init))).1.internal.pending_len = 65536 ∧
    (sent_cb 1 (async_send big_packet (some 7) (set_pcb (some 1) World.init))).1.log
      = (async_send big_packet (some 7) (set_pcb (some 1) World.init)).log := by
  have h0 : (set_pcb (some 1) World.init).internal.pending_len = 0 := rfl
  have hp : (set_pcb (some 1) World.init).internal.pcb = some 1 := rfl
  have hlen : (0 + big_packet.length) % UINT_MOD = 65537 := by
    rw [big_packet_length]; decide
  have hu : u16_t big_packet.length = 1 := by
    rw [big_packet_length]; decide
  have hpl : (async_send big_packet (some 7)
      (set_pcb (some 1) World.init)).internal.pending_len = 65537 := by
    rw [async_send_pending_len _ _ _ rfl, h0, hlen]
  have hz : ((async_send big_packet (some 7)
      (set_pcb (some 1) World.init)).internal.pending_len + UINT_MOD - u16_t 1) % UINT_MOD
      ≠ 0 := by
    rw [hpl]; decide
  refine ⟨rfl, by rw [big_packet_length]; decide, ?_, hpl, ?_, ?_⟩
  · rw [async_send_log _ _ _ rfl, hu, hp]
  · rw [sent_cb_waits_pending_len 1 _ hz, hpl]; decide
  · rw [sent_cb_waits_log 1 _ hz]

end Net2Tr
